import Mathlib

/-!
Verification of the MCP_client_nonLLM execution gateway.

This file is a shallow embedding, in Lean 4, of the components of the
repository that the specification's claims are about:

* `src/executor/schema_executor.py` — URL normalization, value conversion,
  entity→parameter matching and `SchemaExecutor.build_parameters`;
* `src/intent/classifier.py` — forced overrides, the override registry and
  `IntentEngine.classify`;
* `src/rules/engine.py` — the rule data model, the seeded default rules and
  `RuleEngine.evaluate`;
* `src/nlp/entity_extractor.py` — entity deduplication and `extract`;
* `src/mcp/client.py` — `MCPClient.call_tool` and `MCPClient.connect_server`.

External effectful boundaries (the scikit-learn classifier, the spaCy NER
model, the Python `re` engine on arbitrary patterns, Python `float()`
parsing, the `jsonschema` validator, and the MCP transport) are modelled as
explicit oracle parameters, so that every theorem quantifying over them
holds for any behaviour of the external component.  Machine floats from the
source are modelled as rationals.
-/

/-! ## Python string primitives

Python `str` operations used by the sources, modelled over `String`
(`.data` gives the list of characters).  `pyIsSpace` is the ASCII part of
Python's whitespace class (enough for every string the program builds). -/

def pyIsSpace (c : Char) : Bool :=
  c = ' ' || c = '\t' || c = '\n' || c = '\r' || c = '\x0b' || c = '\x0c'

/-- Python `str.strip()` (ASCII whitespace): drop whitespace from both ends. -/
def pyStrip (s : String) : String :=
  ⟨((s.data.dropWhile pyIsSpace).reverse.dropWhile pyIsSpace).reverse⟩

/-- `n` occurs as a contiguous sublist of `h`. -/
def listInfixB (n : List Char) : List Char → Bool
  | [] => n.isEmpty
  | c :: t => n.isPrefixOf (c :: t) || listInfixB n t

/-- Python `needle in hay` (substring containment). -/
def strContains (hay needle : String) : Bool :=
  listInfixB needle.data hay.data

/-- Python `s.startswith(p)`. -/
def strStarts (s p : String) : Bool :=
  p.data.isPrefixOf s.data

/-- Python `c in s` for a single character. -/
def strHasChar (s : String) (c : Char) : Bool :=
  s.data.contains c

/-- Python `str.lower()` (ASCII case folding, as used by the sources). -/
def pyLower (s : String) : String :=
  ⟨s.data.map Char.toLower⟩

/-! ## `ValueConverter._normalize_url` (src/executor/schema_executor.py:265-286)

```python
url = url.strip()
if url.startswith(('http://', 'https://', 'ftp://', 'file://')):
    return url
if '.' not in url and not url.startswith('localhost'):
    url = f"{url}.com"
return f"https://{url}"
``` -/

/-- The protocol test of `_normalize_url`: `url.startswith(('http://',
'https://', 'ftp://', 'file://'))`. -/
def hasProtocol (url : String) : Bool :=
  strStarts url "http://" || strStarts url "https://" ||
  strStarts url "ftp://" || strStarts url "file://"

/-- `ValueConverter._normalize_url`, translated clause by clause. -/
def normalize_url (url : String) : String :=
  let u := pyStrip url
  if hasProtocol u then
    u
  else
    let u2 := if !strHasChar u '.' && !strStarts u "localhost" then
      u ++ ".com" else u
    "https://" ++ u2

/-- The behaviour claim C7 ascribes to URL normalization, written from the
claim's own words: trimmed and unchanged when the trimmed string starts with
one of the four protocols; otherwise `https://` prefixed to the trimmed
string, after appending `.com` when it has no dot and does not start with
`localhost`. -/
def normalizeUrlClaimed (s : String) : String :=
  if hasProtocol (pyStrip s) then
    pyStrip s
  else if !strHasChar (pyStrip s) '.' && !strStarts (pyStrip s) "localhost" then
    "https://" ++ (pyStrip s ++ ".com")
  else
    "https://" ++ pyStrip s

/-! ## A regular-expression engine for the repository's own patterns

`ForcedOverride.matches` (src/intent/classifier.py:71-90) calls
`re.search(pattern, text, re.IGNORECASE)` for overrides of kind `regex`.
The Python `re` engine is external; theorems about `classify` therefore
take the search function as an oracle.  To evaluate the program's *own*
default override patterns on concrete inputs we interpret exactly the
regular-expression fragment those fifteen patterns use (literals,
alternation, grouping, `?`, `+`, `*`, `\s`, `\w`, and a leading `^`
anchor) with a standard derivative-based matcher, case-folding the input
to model `re.IGNORECASE`. -/

inductive Rx where
  | emp : Rx
  | eps : Rx
  | ch : (Char → Bool) → Rx
  | cat : Rx → Rx → Rx
  | alt : Rx → Rx → Rx
  | star : Rx → Rx

def Rx.nullable : Rx → Bool
  | .emp => false
  | .eps => true
  | .ch _ => false
  | .cat a b => a.nullable && b.nullable
  | .alt a b => a.nullable || b.nullable
  | .star _ => true

def Rx.deriv : Rx → Char → Rx
  | .emp, _ => .emp
  | .eps, _ => .emp
  | .ch p, c => if p c then .eps else .emp
  | .cat a b, c =>
      if a.nullable then .alt (.cat (a.deriv c) b) (b.deriv c)
      else .cat (a.deriv c) b
  | .alt a b, c => .alt (a.deriv c) (b.deriv c)
  | .star a, c => .cat (a.deriv c) (.star a)

/-- Does `r` match some prefix of `l` (the semantics of an anchored
`re.search`)? -/
def Rx.matchPre (r : Rx) : List Char → Bool
  | [] => r.nullable
  | c :: cs => r.nullable || (r.deriv c).matchPre cs

/-- Does `r` match a substring starting at any position (the semantics of an
unanchored `re.search`)? -/
def Rx.searchAll (r : Rx) : List Char → Bool
  | [] => r.nullable
  | c :: cs => r.matchPre (c :: cs) || r.searchAll cs

def rxLit (c : Char) : Rx := .ch (fun d => d = c)

def rxStr (s : String) : Rx :=
  s.data.foldr (fun c r => .cat (rxLit c) r) .eps

def rxAlts : List Rx → Rx
  | [] => .emp
  | r :: rs => rs.foldl .alt r

def rxOpt (r : Rx) : Rx := .alt r .eps

def rxPlus (r : Rx) : Rx := .cat r (.star r)

/-- `\s` (ASCII). -/
def rxWs : Rx := .ch pyIsSpace

/-- `\w` (ASCII). -/
def rxWord : Rx := .ch (fun c => c.isAlphanum || c = '_')

/-- `\s+`. -/
def rxWsP : Rx := rxPlus rxWs

/-! The fifteen `DEFAULT_OVERRIDES` patterns
(src/intent/classifier.py:100-200), as abstract syntax.  The `help`
override is `exact`, not `regex`, so it needs no entry. -/

/-- `^(list|show|get)\s+(files?|directory|dir|folder)` -/
def rxListFiles : Rx :=
  .cat (rxAlts [rxStr "list", rxStr "show", rxStr "get"])
    (.cat rxWsP (rxAlts [.cat (rxStr "file") (rxOpt (rxLit 's')),
      rxStr "directory", rxStr "dir", rxStr "folder"]))

/-- `^read\s+(file|content)` -/
def rxReadFile : Rx :=
  .cat (rxStr "read") (.cat rxWsP (rxAlts [rxStr "file", rxStr "content"]))

/-- `^(create|write|save)\s+file` -/
def rxWriteFile : Rx :=
  .cat (rxAlts [rxStr "create", rxStr "write", rxStr "save"])
    (.cat rxWsP (rxStr "file"))

/-- `^(delete|remove)\s+file` -/
def rxDeleteFile : Rx :=
  .cat (rxAlts [rxStr "delete", rxStr "remove"]) (.cat rxWsP (rxStr "file"))

/-- `^fetch\s+(url|http|https|webpage|page)` -/
def rxFetchUrl : Rx :=
  .cat (rxStr "fetch") (.cat rxWsP
    (rxAlts [rxStr "url", rxStr "http", rxStr "https", rxStr "webpage", rxStr "page"]))

/-- `^(get|download)\s+(from\s+)?(url|http|https)` -/
def rxGetUrl : Rx :=
  .cat (rxAlts [rxStr "get", rxStr "download"])
    (.cat rxWsP (.cat (rxOpt (.cat (rxStr "from") rxWsP))
      (rxAlts [rxStr "url", rxStr "http", rxStr "https"])))

/-- `^(store|save|put)\s+(in|to)?\s*memory` -/
def rxStoreMemory : Rx :=
  .cat (rxAlts [rxStr "store", rxStr "save", rxStr "put"])
    (.cat rxWsP (.cat (rxOpt (rxAlts [rxStr "in", rxStr "to"]))
      (.cat (.star rxWs) (rxStr "memory"))))

/-- `^(get|retrieve|fetch)\s+(from\s+)?memory` -/
def rxRetrieveMemory : Rx :=
  .cat (rxAlts [rxStr "get", rxStr "retrieve", rxStr "fetch"])
    (.cat rxWsP (.cat (rxOpt (.cat (rxStr "from") rxWsP)) (rxStr "memory")))

/-- `(list|show|get)\s+(all\s+)?tools?` -/
def rxListTools : Rx :=
  .cat (rxAlts [rxStr "list", rxStr "show", rxStr "get"])
    (.cat rxWsP (.cat (rxOpt (.cat (rxStr "all") rxWsP))
      (.cat (rxStr "tool") (rxOpt (rxLit 's')))))

/-- `(list|show|get)\s+(all\s+)?servers?` -/
def rxListServers : Rx :=
  .cat (rxAlts [rxStr "list", rxStr "show", rxStr "get"])
    (.cat rxWsP (.cat (rxOpt (.cat (rxStr "all") rxWsP))
      (.cat (rxStr "server") (rxOpt (rxLit 's')))))

/-- `(show|get|check)\s+(server\s+)?status` -/
def rxServerStatus : Rx :=
  .cat (rxAlts [rxStr "show", rxStr "get", rxStr "check"])
    (.cat rxWsP (.cat (rxOpt (.cat (rxStr "server") rxWsP)) (rxStr "status")))

/-- `(navigate|go)\s+(to\s+)?(\w+|https?://)` -/
def rxNavigate : Rx :=
  .cat (rxAlts [rxStr "navigate", rxStr "go"])
    (.cat rxWsP (.cat (rxOpt (.cat (rxStr "to") rxWsP))
      (rxAlts [rxPlus rxWord,
        .cat (rxStr "http") (.cat (rxOpt (rxLit 's')) (rxStr "://"))])))

/-- `(click|press|tap)\s+(on\s+)?` -/
def rxClick : Rx :=
  .cat (rxAlts [rxStr "click", rxStr "press", rxStr "tap"])
    (.cat rxWsP (rxOpt (.cat (rxStr "on") rxWsP)))

/-- `(screenshot|capture|snap)` -/
def rxScreenshot : Rx :=
  rxAlts [rxStr "screenshot", rxStr "capture", rxStr "snap"]

/-- `re.search(pattern, text, re.IGNORECASE)` for exactly the regular
expressions occurring in `DEFAULT_OVERRIDES`; any other pattern is treated
as non-matching.  Theorems quantifying over registries take the search
function as an oracle, so this concrete instance is used only to evaluate
the program's own default registry on concrete inputs. -/
def pyReSearch (pat text : String) : Bool :=
  let t := (pyLower text).data
  if pat = "^(list|show|get)\\s+(files?|directory|dir|folder)" then rxListFiles.matchPre t
  else if pat = "^read\\s+(file|content)" then rxReadFile.matchPre t
  else if pat = "^(create|write|save)\\s+file" then rxWriteFile.matchPre t
  else if pat = "^(delete|remove)\\s+file" then rxDeleteFile.matchPre t
  else if pat = "^fetch\\s+(url|http|https|webpage|page)" then rxFetchUrl.matchPre t
  else if pat = "^(get|download)\\s+(from\\s+)?(url|http|https)" then rxGetUrl.matchPre t
  else if pat = "^(store|save|put)\\s+(in|to)?\\s*memory" then rxStoreMemory.matchPre t
  else if pat = "^(get|retrieve|fetch)\\s+(from\\s+)?memory" then rxRetrieveMemory.matchPre t
  else if pat = "(list|show|get)\\s+(all\\s+)?tools?" then rxListTools.searchAll t
  else if pat = "(list|show|get)\\s+(all\\s+)?servers?" then rxListServers.searchAll t
  else if pat = "(show|get|check)\\s+(server\\s+)?status" then rxServerStatus.searchAll t
  else if pat = "(navigate|go)\\s+(to\\s+)?(\\w+|https?://)" then rxNavigate.searchAll t
  else if pat = "(click|press|tap)\\s+(on\\s+)?" then rxClick.searchAll t
  else if pat = "(screenshot|capture|snap)" then rxScreenshot.searchAll t
  else false

/-! ## Forced overrides and `IntentEngine.classify`
(src/intent/classifier.py) -/

/-- `ForcedOverride` (src/intent/classifier.py:62-90). -/
structure ForcedOverride where
  pattern : String
  pattern_type : String
  target_intent : String
  priority : Int := 0
  enabled : Bool := true
deriving DecidableEq

/-- `ForcedOverride.matches`, with the `re.search` engine passed as the
oracle `rs`.  Python lowers and strips the text once, then dispatches on
the pattern kind; a disabled override returns `False` immediately; the
`regex` kind searches the *original* text case-insensitively. -/
def ForcedOverride.matches (rs : String → String → Bool)
    (o : ForcedOverride) (text : String) : Bool :=
  if !o.enabled then false
  else
    let normalized := pyStrip (pyLower text)
    if o.pattern_type = "exact" then normalized = pyLower o.pattern
    else if o.pattern_type = "prefix" then strStarts normalized (pyLower o.pattern)
    else if o.pattern_type = "contains" then strContains normalized (pyLower o.pattern)
    else if o.pattern_type = "regex" then rs o.pattern text
    else false

/-- `ForcedOverrideRegistry.DEFAULT_OVERRIDES`
(src/intent/classifier.py:100-200), in declaration order.  This is also
the initial registry: `__init__` copies this list without sorting it. -/
def DEFAULT_OVERRIDES : List ForcedOverride := [
  { pattern := "^(list|show|get)\\s+(files?|directory|dir|folder)",
    pattern_type := "regex", target_intent := "list_files", priority := 100 },
  { pattern := "^read\\s+(file|content)",
    pattern_type := "regex", target_intent := "read_file", priority := 100 },
  { pattern := "^(create|write|save)\\s+file",
    pattern_type := "regex", target_intent := "write_file", priority := 100 },
  { pattern := "^(delete|remove)\\s+file",
    pattern_type := "regex", target_intent := "delete_file", priority := 100 },
  { pattern := "^fetch\\s+(url|http|https|webpage|page)",
    pattern_type := "regex", target_intent := "fetch_url", priority := 100 },
  { pattern := "^(get|download)\\s+(from\\s+)?(url|http|https)",
    pattern_type := "regex", target_intent := "fetch_url", priority := 100 },
  { pattern := "^(store|save|put)\\s+(in|to)?\\s*memory",
    pattern_type := "regex", target_intent := "store_memory", priority := 100 },
  { pattern := "^(get|retrieve|fetch)\\s+(from\\s+)?memory",
    pattern_type := "regex", target_intent := "retrieve_memory", priority := 100 },
  { pattern := "help",
    pattern_type := "exact", target_intent := "show_help", priority := 200 },
  { pattern := "(list|show|get)\\s+(all\\s+)?tools?",
    pattern_type := "regex", target_intent := "list_tools", priority := 200 },
  { pattern := "(list|show|get)\\s+(all\\s+)?servers?",
    pattern_type := "regex", target_intent := "list_servers", priority := 200 },
  { pattern := "(show|get|check)\\s+(server\\s+)?status",
    pattern_type := "regex", target_intent := "list_servers", priority := 200 },
  { pattern := "(navigate|go)\\s+(to\\s+)?(\\w+|https?://)",
    pattern_type := "regex", target_intent := "browser_navigate", priority := 150 },
  { pattern := "(click|press|tap)\\s+(on\\s+)?",
    pattern_type := "regex", target_intent := "browser_click", priority := 150 },
  { pattern := "(screenshot|capture|snap)",
    pattern_type := "regex", target_intent := "browser_screenshot", priority := 150 }]

/-- `ForcedOverrideRegistry.find_match`: scan the stored override list in
order; the first override whose `matches` is true yields
`(target_intent, pattern)`. -/
def find_match (rs : String → String → Bool)
    (overrides : List ForcedOverride) (text : String) : Option (String × String) :=
  match overrides with
  | [] => none
  | o :: os =>
    if o.matches rs text then some (o.target_intent, o.pattern)
    else find_match rs os text

/-- Stable insertion used to model Python's stable
`list.sort(key=lambda x: x.priority, reverse=True)`: an element is placed
after every element of equal or higher priority. -/
def insertOverride (o : ForcedOverride) : List ForcedOverride → List ForcedOverride
  | [] => [o]
  | x :: xs => if o.priority > x.priority then o :: x :: xs else x :: insertOverride o xs

/-- Stable sort by priority, highest first. -/
def sortOverrides (l : List ForcedOverride) : List ForcedOverride :=
  l.foldl (fun acc o => insertOverride o acc) []

/-- `ForcedOverrideRegistry.add_override`: append, then re-sort by priority
(stable, higher first). -/
def add_override (l : List ForcedOverride) (o : ForcedOverride) : List ForcedOverride :=
  sortOverrides (l ++ [o])

/-- `IntentResult` (src/intent/classifier.py:36-59); `metadata` keeps the
string-valued entries the engine actually writes. -/
structure IntentResult where
  intent : String
  confidence : ℚ
  is_forced : Bool := false
  matched_pattern : Option String := none
  alternative_intents : List (String × ℚ) := []
  metadata : List (String × String) := []
deriving DecidableEq

/-- The trained-classifier state of `IntentClassifier`: a trained flag and
the `predict` function as an oracle; `Except` carries the exception branch
of `IntentEngine.classify`. -/
structure IntentClassifier where
  is_trained : Bool
  predict : String → Except String (String × ℚ × List (String × ℚ))

/-- `IntentEngine.classify` (src/intent/classifier.py:400-459): empty or
whitespace-only input short-circuits; otherwise forced overrides are
checked first and, only when none matches, the trained classifier. -/
def classify (rs : String → String → Bool) (overrides : List ForcedOverride)
    (clf : IntentClassifier) (text : String) : IntentResult :=
  if text = "" || pyStrip text = "" then
    { intent := "unknown", confidence := 0, metadata := [("error", "empty_input")] }
  else
    match find_match rs overrides text with
    | some (intent, pat) =>
      { intent := intent, confidence := 1, is_forced := true,
        matched_pattern := some pat, metadata := [("source", "forced_override")] }
    | none =>
      if !clf.is_trained then
        { intent := "unknown", confidence := 0,
          metadata := [("error", "classifier_not_trained")] }
      else
        match clf.predict text with
        | .ok (intent, conf, alts) =>
          { intent := intent, confidence := conf, is_forced := false,
            alternative_intents := alts, metadata := [("source", "ml_classifier")] }
        | .error e =>
          { intent := "unknown", confidence := 0, metadata := [("error", e)] }

/-- An override an operator can register: kind `exact` with the empty
pattern.  Its normalized comparison text is empty, so it matches any
whitespace-only input. -/
def blankOverride : ForcedOverride :=
  { pattern := "", pattern_type := "exact", target_intent := "blank_command" }

/-- An untrained classifier state. -/
def untrainedClassifier : IntentClassifier :=
  ⟨false, fun _ => .error "classifier_not_trained"⟩

/-- The `help` entry of `DEFAULT_OVERRIDES`. -/
def helpOverride : ForcedOverride :=
  { pattern := "help", pattern_type := "exact",
    target_intent := "show_help", priority := 200 }

/-- The `browser_screenshot` entry of `DEFAULT_OVERRIDES`. -/
def screenshotOverride : ForcedOverride :=
  { pattern := "(screenshot|capture|snap)", pattern_type := "regex",
    target_intent := "browser_screenshot", priority := 150 }

/-! ## JSON values

A small JSON value type shared by the rule engine (modification maps), the
schema executor and the MCP client models.  Python `float` values are
modelled as rationals. -/

inductive JVal where
  | null : JVal
  | bool : Bool → JVal
  | int : Int → JVal
  | num : ℚ → JVal
  | str : String → JVal
  | arr : List JVal → JVal
  | obj : List (String × JVal) → JVal

/-- Assoc-list update with Python `dict` semantics: replace the first
binding of `k`, else append. -/
def setKey : List (String × JVal) → String → JVal → List (String × JVal)
  | [], k, v => [(k, v)]
  | (k', v') :: t, k, v =>
    if k' = k then (k, v) :: t else (k', v') :: setKey t k v

/-- Python `base.update(upd)`. -/
def updateDict (base upd : List (String × JVal)) : List (String × JVal) :=
  upd.foldl (fun acc kv => setKey acc kv.1 kv.2) base

/-- Assoc-list lookup (`d.get(k)`). -/
def getKey : List (String × JVal) → String → Option JVal
  | [], _ => none
  | (k', v') :: t, k => if k' = k then some v' else getKey t k

/-! ## Rule engine (src/rules/engine.py) -/

/-- `RuleDecision` (src/rules/engine.py:30-34). -/
inductive RuleDecision where
  | allow : RuleDecision
  | deny : RuleDecision
  | modify : RuleDecision
deriving DecidableEq

/-- The decision context fields that `RuleContext.to_dict`
(src/rules/engine.py:37-93) exposes to json-logic rules. -/
structure RuleCtx where
  user_id : Option String := none
  user_role : String := "guest"
  user_permissions : List String := []
  intent : String := ""
  intent_confidence : ℚ := 0
  is_forced_intent : Bool := false
  tool_name : Option String := none
  tool_category : Option String := none
  tool_requires_confirmation : Bool := false
  is_destructive_operation : Bool := false
  target_resource : Option String := none
  session_id : Option String := none
  request_count : Int := 0

/-- `Rule` (src/rules/engine.py:115-134).  `Rule.evaluate` runs the stored
json-logic tree totally (failures yield `False`), so the predicate is
modelled as a boolean function of the context. -/
structure Rule where
  name : String
  description : String
  rule_type : String
  logic : RuleCtx → Bool
  priority : Int := 0
  enabled : Bool := true
  decision_on_match : RuleDecision := .allow
  modifications : List (String × JVal) := []

/-- `settings.nlp.INTENT_CONFIDENCE_THRESHOLD` (src/config/settings.py:64):
the rational 7/10, built with literal numerator and denominator so that
rule evaluation reduces in the kernel. -/
def INTENT_CONFIDENCE_THRESHOLD : ℚ := Rat.mk' 7 10 (by norm_num) (by norm_num)

/-- `RuleEngine.DEFAULT_RULES` (src/rules/engine.py:148-221), with each
rule's json-logic tree evaluated over the context dictionary. -/
def DEFAULT_RULES : List Rule := [
  { name := "confidence_threshold",
    description := "Deny if intent confidence is below threshold",
    rule_type := "threshold", priority := 100,
    logic := fun c => !c.is_forced_intent &&
      decide (c.intent_confidence < INTENT_CONFIDENCE_THRESHOLD),
    decision_on_match := .deny },
  { name := "guest_readonly",
    description := "Guest users can only use read operations",
    rule_type := "permission", priority := 90,
    logic := fun c => (c.user_role = "guest") && c.is_destructive_operation,
    decision_on_match := .deny },
  { name := "destructive_confirmation",
    description := "Require confirmation for destructive operations",
    rule_type := "context", priority := 80,
    logic := fun c => c.is_destructive_operation && !c.tool_requires_confirmation,
    decision_on_match := .modify,
    modifications := [("requires_confirmation", JVal.bool true)] },
  { name := "admin_confidence_bypass",
    description := "Admin users can bypass low confidence",
    rule_type := "permission", priority := 200,
    logic := fun c => (c.user_role = "admin") &&
      decide (c.intent_confidence < INTENT_CONFIDENCE_THRESHOLD),
    decision_on_match := .allow },
  { name := "rate_limit",
    description := "Deny if too many requests in session",
    rule_type := "context", priority := 50,
    logic := fun c => decide (c.request_count > 1000),
    decision_on_match := .deny }]

/-- Stable insertion for Python's
`rules.sort(key=lambda r: r.priority, reverse=True)`. -/
def insertRule (r : Rule) : List Rule → List Rule
  | [] => [r]
  | x :: xs => if r.priority > x.priority then r :: x :: xs else x :: insertRule r xs

/-- `RuleEngine._sort_rules`: stable sort by priority, highest first. -/
def sortRules (l : List Rule) : List Rule :=
  l.foldl (fun acc r => insertRule r acc) []

/-- `RuleResult` (src/rules/engine.py:96-112); the metadata entries the
engine writes are the terminal rule name or the evaluated-rule count. -/
structure RuleResult where
  decision : RuleDecision
  matched_rules : List String
  reason : Option String := none
  modifications : List (String × JVal) := []
  metadata : List (String × String) := []

/-- The walk inside `RuleEngine.evaluate` (src/rules/engine.py:282-311):
disabled rules are skipped; a matching `DENY` rule returns immediately with
its description as reason; `MODIFY` sets the running decision and merges
its modification map; `ALLOW` sets the running decision to allow (the
running decision can never be deny here, since deny returns). -/
def evalRules (ctx : RuleCtx) (total : Nat) :
    List Rule → List String → RuleDecision → List (String × JVal) → RuleResult
  | [], matched, dec, mods =>
    { decision := dec, matched_rules := matched, reason := none,
      modifications := mods,
      metadata := [("rules_evaluated", toString total)] }
  | r :: rest, matched, dec, mods =>
    if !r.enabled then evalRules ctx total rest matched dec mods
    else if r.logic ctx then
      match r.decision_on_match with
      | .deny =>
        { decision := .deny, matched_rules := matched ++ [r.name],
          reason := some r.description, modifications := [],
          metadata := [("terminal_rule", r.name)] }
      | .modify =>
        evalRules ctx total rest (matched ++ [r.name]) .modify
          (updateDict mods r.modifications)
      | .allow =>
        evalRules ctx total rest (matched ++ [r.name])
          (if dec ≠ .deny then .allow else dec) mods
    else evalRules ctx total rest matched dec mods

/-- `RuleEngine.evaluate` (src/rules/engine.py:261-319) over the engine's
stored (already priority-sorted) rule list. -/
def RuleEngine_evaluate (rules : List Rule) (ctx : RuleCtx) : RuleResult :=
  evalRules ctx rules.length rules [] .allow []

/-- The module-level `evaluate_rules` convenience: the singleton engine
holds `DEFAULT_RULES` sorted by priority (its `__init__` sorts). -/
def evaluate_rules (ctx : RuleCtx) : RuleResult :=
  RuleEngine_evaluate (sortRules DEFAULT_RULES) ctx

/-- The failing input of the admin-bypass claim: an admin user with an
unforced intent of confidence 0.3 (below the 0.7 threshold). -/
def adminLowConfCtx : RuleCtx :=
  { user_role := "admin",
    intent_confidence := Rat.mk' 3 10 (by norm_num) (by norm_num),
    is_forced_intent := false }

/-- A rule that always matches and allows (used to instantiate the deny
terminality theorem). -/
def alwaysAllowRule : Rule :=
  { name := "allow_all", description := "always allow", rule_type := "context",
    logic := fun _ => true, priority := 10, decision_on_match := .allow }

/-- A rule that always matches and denies. -/
def alwaysDenyRule : Rule :=
  { name := "deny_all", description := "always deny", rule_type := "context",
    logic := fun _ => true, priority := 5, decision_on_match := .deny }

/-- A rule that always matches and modifies. -/
def alwaysModifyRule : Rule :=
  { name := "modify_all", description := "always modify", rule_type := "context",
    logic := fun _ => true, priority := 1, decision_on_match := .modify,
    modifications := [("flag", JVal.bool true)] }

/-! ## Entity extraction (src/nlp/entity_extractor.py) -/

/-- `ExtractedEntity` (src/nlp/entity_extractor.py:27-38); `stop` models the
Python field `end` (a Lean keyword), and `source` is the `metadata["source"]`
tag each extraction path writes (`"spacy_ner"` or `"regex_pattern"`). -/
structure ExtractedEntity where
  text : String
  label : String
  start : Nat
  stop : Nat
  confidence : ℚ := 1
  source : String
deriving DecidableEq

/-- Whether an entity came from the spaCy NER source
(`e.metadata.get("source") == "spacy_ner"`). -/
def entIsNer (e : ExtractedEntity) : Bool := e.source = "spacy_ner"

/-- The sort tiebreak of `_deduplicate_entities`:
`0 if source == "spacy_ner" else 1`. -/
def entPref (e : ExtractedEntity) : Nat := if entIsNer e then 0 else 1

/-- The strict lexicographic order on the sort key
`(e.start, 0 if spacy else 1)`. -/
def entKeyLt (a b : ExtractedEntity) : Bool :=
  a.start < b.start || (a.start == b.start && entPref a < entPref b)

/-- The reflexive key order (used to state sortedness). -/
def entKeyLe (a b : ExtractedEntity) : Prop :=
  a.start < b.start ∨ (a.start = b.start ∧ entPref a ≤ entPref b)

/-- Stable insertion: an entity goes after every entity whose key is less
than or equal to its own, which models Python's stable `sorted`. -/
def insertEnt (e : ExtractedEntity) : List ExtractedEntity → List ExtractedEntity
  | [] => [e]
  | x :: xs => if entKeyLt e x then e :: x :: xs else x :: insertEnt e xs

/-- `sorted(entities, key=lambda e: (e.start, 0 if spacy else 1))`. -/
def sortEntities (l : List ExtractedEntity) : List ExtractedEntity :=
  l.foldl (fun acc e => insertEnt e acc) []

/-- The left-to-right walk of `_deduplicate_entities`
(src/nlp/entity_extractor.py:192-199): starting from `last_end = -1`, keep
an entity iff its start is at least the last kept entity's end. -/
def dedupGo (lastEnd : Int) : List ExtractedEntity → List ExtractedEntity
  | [] => []
  | e :: rest =>
    if lastEnd ≤ (e.start : Int) then e :: dedupGo (e.stop : Int) rest
    else dedupGo lastEnd rest

/-- `EntityExtractor._deduplicate_entities`
(src/nlp/entity_extractor.py:181-201). -/
def deduplicate_entities (l : List ExtractedEntity) : List ExtractedEntity :=
  if l.isEmpty then l else dedupGo (-1) (sortEntities l)

/-- One step of collapsing whitespace runs to single spaces (the body of
`re.sub(r"\s+", " ", text)` on an already-stripped string). -/
def collapseWs : List Char → List Char
  | [] => []
  | c :: t =>
    if pyIsSpace c then ' ' :: collapseWs (t.dropWhile pyIsSpace)
    else c :: collapseWs t
termination_by l => l.length
decreasing_by
  · simp only [List.length_cons]
    exact Nat.lt_succ_of_le (List.IsSuffix.length_le (List.dropWhile_suffix pyIsSpace))
  · simp

/-- `EntityExtractor._normalize_text` (src/nlp/entity_extractor.py:143-147):
strip, then collapse internal whitespace runs. -/
def normalize_text (text : String) : String :=
  ⟨collapseWs (pyStrip text).data⟩

/-- `EntityExtractionResult` (src/nlp/entity_extractor.py:41-59). -/
structure EntityExtractionResult where
  original_text : String
  normalized_text : String
  entities : List ExtractedEntity
  tokens : List String
  noun_chunks : List String

/-- The external NLP sources feeding `extract`: the spaCy model's entities,
tokens and noun chunks, and the `re.finditer` results of the custom
patterns, all as oracles on the normalized text. -/
structure NlpOracle where
  ents : String → List ExtractedEntity
  tokens : String → List String
  noun_chunks : String → List String
  custom : String → List ExtractedEntity

/-- `EntityExtractor.extract` (src/nlp/entity_extractor.py:214-266): empty
or whitespace-only input returns an empty result; otherwise the spaCy and
regex candidate entities are concatenated and deduplicated. -/
def extract (O : NlpOracle) (text : String) : EntityExtractionResult :=
  if text = "" || pyStrip text = "" then
    { original_text := text, normalized_text := "", entities := [],
      tokens := [], noun_chunks := [] }
  else
    let normalized := normalize_text text
    { original_text := text, normalized_text := normalized,
      entities := deduplicate_entities (O.ents normalized ++ O.custom normalized),
      tokens := O.tokens normalized, noun_chunks := O.noun_chunks normalized }

/-- A regex-sourced URL candidate spanning offsets 0-10. -/
def entWideUrl : ExtractedEntity :=
  { text := "www.abc.de", label := "URL", start := 0, stop := 10,
    confidence := Rat.mk' 9 10 (by norm_num) (by norm_num),
    source := "regex_pattern" }

/-- An NER-sourced candidate spanning offsets 0-3. -/
def entShortOrg : ExtractedEntity :=
  { text := "www", label := "ORG", start := 0, stop := 3, source := "spacy_ner" }

/-- An NER-sourced candidate spanning offsets 5-6. -/
def entLatePerson : ExtractedEntity :=
  { text := "b", label := "PERSON", start := 5, stop := 6, source := "spacy_ner" }

/-- An NER candidate at 0-5 and a regex candidate at 3-6 (two-entity
overlap for the witness). -/
def entFirstNer : ExtractedEntity :=
  { text := "abcde", label := "ORG", start := 0, stop := 5, source := "spacy_ner" }

/-- See `entFirstNer`. -/
def entSecondRegex : ExtractedEntity :=
  { text := "cde:1", label := "PORT", start := 3, stop := 6,
    source := "regex_pattern" }

/-! ## MCP client (src/mcp/client.py, src/mcp/transport.py) -/

/-- The `error` member of a JSON-RPC response: the fields
`MCPClient`/`JsonRpcResponse` actually read from the error dictionary. -/
structure RpcError where
  code : Option Int := none
  message : Option String := none

/-- `JsonRpcResponse` (src/mcp/transport.py:66-99). -/
structure JsonRpcResponse where
  id : Option String := none
  result : Option JVal := none
  error : Option RpcError := none

/-- `response.is_error` — the error member is present. -/
def JsonRpcResponse.is_error (r : JsonRpcResponse) : Bool := r.error.isSome

/-- `response.error_message` — `error.get("message", "Unknown error")`. -/
def JsonRpcResponse.error_message (r : JsonRpcResponse) : Option String :=
  match r.error with
  | some e => some (e.message.getD "Unknown error")
  | none => none

/-- `response.error_code` — `error.get("code")`. -/
def JsonRpcResponse.error_code (r : JsonRpcResponse) : Option Int :=
  match r.error with
  | some e => e.code
  | none => none

/-- `MCPCapabilities` (src/mcp/transport.py:104-119); a flag is true iff the
corresponding key is present in the server's capability dictionary. -/
structure MCPCapabilities where
  tools : Bool := false
  prompts : Bool := false
  resources : Bool := false
  log_capability : Bool := false

/-- `MCPToolDefinition` (src/mcp/transport.py:125-136). -/
structure MCPToolDefinition where
  name : String
  description : Option String := none
  input_schema : JVal := .obj []

/-- `MCPServerConnection` (src/mcp/client.py:41-49); the transport itself
is the oracle `TransportScript`. -/
structure MCPServerConnection where
  server_id : String
  capabilities : Option MCPCapabilities := none
  tools : List MCPToolDefinition := []
  is_initialized : Bool := false
  error : Option String := none

/-- `MCPCapabilities.from_dict(response.result or {})`: `None` when the
Python code would raise (`.get` on a non-dictionary, or membership test on
a non-container capability set), which the caller's `except` turns into an
initialization failure. -/
def capabilities_from_result : Option JVal → Option MCPCapabilities
  | none => some {}
  | some (.obj fields) =>
    match (getKey fields "capabilities").getD (.obj []) with
    | .obj caps => some
      { tools := (getKey caps "tools").isSome,
        prompts := (getKey caps "prompts").isSome,
        resources := (getKey caps "resources").isSome,
        log_capability := (getKey caps "logging").isSome }
    | _ => none
  | some _ => none

/-- `MCPToolDefinition.from_dict` (`data["name"]` raises when absent;
string names are the modelled case). -/
def parse_tool_def : JVal → Option MCPToolDefinition
  | .obj f =>
    match getKey f "name" with
    | some (.str n) => some
      { name := n,
        description := match getKey f "description" with
          | some (.str d) => some d
          | _ => none,
        input_schema := (getKey f "inputSchema").getD (.obj []) }
    | _ => none
  | _ => none

/-- The body of `_discover_tools` after a non-error response:
`(response.result or {}).get("tools", [])`, then `from_dict` on each
element; `None` models the raising paths, which `_discover_tools` catches
and ignores. -/
def parse_tools_result (result : Option JVal) : Option (List MCPToolDefinition) :=
  match result.getD (.obj []) with
  | .obj fields =>
    match (getKey fields "tools").getD (.arr []) with
    | .arr items => items.mapM parse_tool_def
    | _ => none
  | _ => none

/-- One transport interaction: either a response object or a raised
exception. -/
inductive RespOutcome where
  | resp : JsonRpcResponse → RespOutcome
  | raised : String → RespOutcome

/-- The transport-level behaviour of one `connect_server` run: the result
of `transport.connect()` and the three `send_request` calls of the
handshake (initialize, initialized-notification, tools/list). -/
structure TransportScript where
  connectOk : Bool
  initResp : RespOutcome
  notifyResp : RespOutcome
  toolsResp : RespOutcome

/-- `MCPClient._initialize_server` (src/mcp/client.py:146-198) together
with `_discover_tools` (src/mcp/client.py:200-225): returns the success
flag and the mutated connection.  An initialize error or any exception
before the handshake completes yields `False`; `_discover_tools` catches
every failure internally, so a failed or error tools/list leaves the
connection initialized with an empty tool list and the handshake still
returns `True`. -/
def initialize_server (S : TransportScript) (conn : MCPServerConnection) :
    Bool × MCPServerConnection :=
  match S.initResp with
  | .raised e => (false, { conn with error := some e })
  | .resp r =>
    if r.is_error then (false, { conn with error := r.error_message })
    else
      match capabilities_from_result r.result with
      | none => (false, { conn with error := some "capabilities not a dictionary" })
      | some caps =>
        match S.notifyResp with
        | .raised e => (false, { conn with capabilities := some caps, error := some e })
        | .resp _ =>
          let conn1 := { conn with capabilities := some caps, is_initialized := true }
          if caps.tools then
            match S.toolsResp with
            | .raised _ => (true, conn1)
            | .resp tr =>
              if tr.is_error then (true, conn1)
              else
                match parse_tools_result tr.result with
                | none => (true, conn1)
                | some tools => (true, { conn1 with tools := tools })
          else (true, conn1)

/-- `self._connections.get(server_id)`. -/
def lookupConn : List (String × MCPServerConnection) → String →
    Option MCPServerConnection
  | [], _ => none
  | (k, v) :: t, sid => if k = sid then some v else lookupConn t sid

/-- `self._connections.pop(server_id)` (the removal part of
`_disconnect_server_internal`). -/
def removeConn : List (String × MCPServerConnection) → String →
    List (String × MCPServerConnection)
  | [], _ => []
  | (k, v) :: t, sid => if k = sid then t else (k, v) :: removeConn t sid

/-- `MCPClient.connect_server` (src/mcp/client.py:83-144): disconnect any
existing connection under the same id, connect the transport, run the
handshake; on failure return `False` with nothing registered, on success
register the connection. -/
def connect_server (S : TransportScript)
    (connections : List (String × MCPServerConnection)) (server_id : String) :
    Bool × List (String × MCPServerConnection) :=
  let conns1 := removeConn connections server_id
  if !S.connectOk then (false, conns1)
  else
    let res := initialize_server S { server_id := server_id }
    if res.1 then (true, conns1 ++ [(server_id, res.2)])
    else (false, conns1)

/-- `ToolCallResult` (src/mcp/client.py:52-68). -/
structure ToolCallResult where
  success : Bool
  content : JVal := .null
  error : Option String := none
  error_code : Option Int := none
  metadata : List (String × String) := []

/-- The transport outcome of the single `tools/call` request issued by
`call_tool`. -/
inductive SendOutcome where
  | resp : JsonRpcResponse → SendOutcome
  | timeoutRaised : SendOutcome
  | raised : String → SendOutcome

/-- `MCPClient.call_tool` (src/mcp/client.py:253-334), with the transport
interaction as the oracle `send`.  Every failure is returned as a
structured `ToolCallResult`; nothing escapes. -/
def call_tool (connections : List (String × MCPServerConnection))
    (send : SendOutcome) (server_id tool_name : String)
    (arguments : List (String × JVal)) : ToolCallResult :=
  match lookupConn connections server_id with
  | none =>
    { success := false, error := some ("Server not connected: " ++ server_id),
      error_code := some (-32000) }
  | some conn =>
    if !conn.is_initialized then
      { success := false, error := some ("Server not initialized: " ++ server_id),
        error_code := some (-32001) }
    else
      match send with
      | .timeoutRaised =>
        { success := false, error := some "Request timed out",
          error_code := some (-32002) }
      | .raised msg =>
        { success := false, error := some msg, error_code := some (-32603) }
      | .resp response =>
        if response.is_error then
          { success := false, error := response.error_message,
            error_code := response.error_code }
        else
          match response.result.getD (.obj []) with
          | .obj fields =>
            let content := (getKey fields "content").getD (.arr [])
            let lifted := match content with
              | .arr (first :: rest) =>
                match first with
                | .obj ff =>
                  match getKey ff "type" with
                  | some (.str t) =>
                    if t = "text" then (getKey ff "text").getD (.arr (first :: rest))
                    else .arr (first :: rest)
                  | _ => .arr (first :: rest)
                | _ => .arr (first :: rest)
              | other => other
            { success := true, content := lifted,
              metadata := [("server_id", server_id), ("tool_name", tool_name)] }
          | _ =>
            { success := false, error := some "result has no attribute get",
              error_code := some (-32603) }

/-- A transport script whose handshake succeeds, whose server advertises
the tools capability, and whose tools/list request returns a JSON-RPC
error. -/
def toolsFailScript : TransportScript :=
  { connectOk := true,
    initResp := .resp
      { result := some (.obj [("capabilities", .obj [("tools", .obj [])])]) },
    notifyResp := .resp {},
    toolsResp := .resp
      { error := some { code := some (-32601), message := some "method not found" } } }

/-! ## Schema executor (src/executor/schema_executor.py) -/

/-- A JSON-Schema property definition: the fields the executor reads
(`type`, `format`, `description`, `enum`, `default`, `items`).  Recursive
through `items` for array element schemas. -/
inductive ParamDef where
  | mk : (ptype : Option String) → (pformat : Option String) →
      (pdescription : String) → (penum : Option (List JVal)) →
      (pdefault : Option JVal) → (pitems : Option ParamDef) → ParamDef

def ParamDef.ptype : ParamDef → Option String
  | .mk t _ _ _ _ _ => t

def ParamDef.pformat : ParamDef → Option String
  | .mk _ f _ _ _ _ => f

def ParamDef.pdescription : ParamDef → String
  | .mk _ _ d _ _ _ => d

def ParamDef.penum : ParamDef → Option (List JVal)
  | .mk _ _ _ e _ _ => e

def ParamDef.pdefault : ParamDef → Option JVal
  | .mk _ _ _ _ d _ => d

def ParamDef.pitems : ParamDef → Option ParamDef
  | .mk _ _ _ _ _ i => i

/-- `param_def.get("type", "string")`. -/
def ParamDef.typeD (d : ParamDef) : String := d.ptype.getD "string"

/-- A property definition carrying only a type. -/
def typedParam (t : String) : ParamDef := .mk (some t) none "" none none none

/-- `SchemaAnalyzer.TYPE_TO_ENTITY_MAP` (src/executor/schema_executor.py:57-64). -/
def TYPE_TO_ENTITY_MAP : List (String × List String) := [
  ("string", ["FILE_PATH", "URL", "EMAIL", "PERSON", "ORG", "GPE", "COMMAND"]),
  ("integer", ["CARDINAL", "QUANTITY"]),
  ("number", ["CARDINAL", "MONEY", "PERCENT", "QUANTITY"]),
  ("boolean", []),
  ("array", []),
  ("object", [])]

/-- `SchemaAnalyzer.PARAM_PATTERNS` (src/executor/schema_executor.py:67-85). -/
def PARAM_PATTERNS : List (String × List String) := [
  ("path", ["FILE_PATH"]),
  ("file", ["FILE_PATH"]),
  ("directory", ["FILE_PATH"]),
  ("url", ["URL"]),
  ("uri", ["URL"]),
  ("email", ["EMAIL"]),
  ("name", ["PERSON", "ORG"]),
  ("location", ["GPE", "LOC"]),
  ("date", ["DATE"]),
  ("time", ["TIME"]),
  ("amount", ["MONEY", "CARDINAL"]),
  ("count", ["CARDINAL"]),
  ("number", ["CARDINAL"]),
  ("command", ["COMMAND"]),
  ("query", []),
  ("content", []),
  ("text", [])]

/-- Generic string-keyed assoc lookup (Python `dict.get` over the label
maps). -/
def lookupStrs : List (String × List String) → String → Option (List String)
  | [], _ => none
  | (k', v) :: t, k => if k' = k then some v else lookupStrs t k

/-- Order-preserving de-duplication ("remove duplicates while preserving
order"). -/
def dedupFirst (l : List String) : List String :=
  l.foldl (fun acc x => if x ∈ acc then acc else acc ++ [x]) []

/-- `SchemaAnalyzer.suggest_entity_labels`
(src/executor/schema_executor.py:134-162): name-pattern hints (substring
match on the lowered parameter name) followed by type-fallback labels,
de-duplicated preserving order. -/
def suggest_entity_labels (param_name : String) (d : ParamDef) : List String :=
  let param_lower := pyLower param_name
  let fromPatterns := PARAM_PATTERNS.foldl
    (fun acc pl => if strContains param_lower pl.1 then acc ++ pl.2 else acc) []
  let typeLabels := (lookupStrs TYPE_TO_ENTITY_MAP d.typeD).getD []
  dedupFirst (fromPatterns ++ typeLabels)

/-- Match confidence 0.5 (kernel-reducible rational). -/
def conf05 : ℚ := Rat.mk' 1 2 (by norm_num) (by norm_num)

/-- Match confidence 0.8. -/
def conf08 : ℚ := Rat.mk' 4 5 (by norm_num) (by norm_num)

/-- Match confidence 0.9. -/
def conf09 : ℚ := Rat.mk' 9 10 (by norm_num) (by norm_num)

/-- The mapping-log rendering `f"{confidence:.2f}"`, exact on the four
confidences the matcher produces. -/
def confTwoDecimals (q : ℚ) : String :=
  if q = 1 then "1.00"
  else if q = conf09 then "0.90"
  else if q = conf08 then "0.80"
  else if q = conf05 then "0.50"
  else toString q

/-- Python `str(v)` on the JSON values enum lists hold (string enums are
the modelled case; numeric rendering approximates CPython's repr). -/
def pyStrJ : JVal → String
  | .str s => s
  | .bool true => "True"
  | .bool false => "False"
  | .int n => toString n
  | .num q => toString q
  | .null => "None"
  | .arr _ => "[...]"
  | .obj _ => "{...}"

/-- `EntityMatcher.match_entity_to_param`
(src/executor/schema_executor.py:170-214), with Python `float()`
acceptance as the oracle `pf` (`none` models a `ValueError`; finite parses
are the modelled case). -/
def match_entity_to_param (pf : String → Option ℚ) (entity : ExtractedEntity)
    (param_name : String) (d : ParamDef) : Bool × ℚ :=
  let suggested := suggest_entity_labels param_name d
  if entity.label ∈ suggested then (true, conf09)
  else if (match d.penum with
    | some vs => (vs.map (fun v => pyLower (pyStrJ v))).contains (pyLower entity.text)
    | none => false) then (true, 1)
  else
    match d.typeD with
    | "string" => (true, conf05)
    | "integer" =>
      match pf (entity.text.replace "," "") with
      | some _ => (true, conf08)
      | none => (false, 0)
    | "number" =>
      match pf (entity.text.replace "," "") with
      | some _ => (true, conf08)
      | none => (false, 0)
    | "boolean" =>
      if pyLower entity.text ∈ ["true", "false", "yes", "no", "1", "0"] then
        (true, conf09)
      else (false, 0)
    | _ => (false, 0)

/-- `EntityMatcher.find_best_entity`
(src/executor/schema_executor.py:216-257): scan the entities in order,
skipping already-used indices; a strictly higher confidence replaces the
running best, so the earliest entity of maximal confidence wins; its index
is consumed. -/
def find_best_entity (pf : String → Option ℚ) (entities : List ExtractedEntity)
    (param_name : String) (d : ParamDef) (used : List Nat) :
    Option (ExtractedEntity × ℚ × Nat) :=
  entities.enum.foldl
    (fun best ie =>
      if ie.1 ∈ used then best
      else
        let mc := match_entity_to_param pf ie.2 param_name d
        let bestConf : ℚ := match best with
          | some (_, c, _) => c
          | none => 0
        if mc.1 && bestConf < mc.2 then some (ie.2, mc.2, ie.1) else best)
    none

/-- Python `int(float(x))`: truncation toward zero. -/
def pyTrunc (q : ℚ) : Int := q.num.tdiv (q.den : Int)

/-- `ValueConverter.convert` (src/executor/schema_executor.py:288-340):
`none` models a raised `ValueError`/`TypeError`.  A `string` value is
URL-normalized when the property is URL-flagged (`format == "uri"` or the
lowered description mentions "url"/"uri"); arrays split on commas and
convert each element at the declared item type (string when absent). -/
def convertVal (pf : String → Option ℚ) : ParamDef → String → Option JVal
  | .mk t f desc en df items, value =>
    let d : ParamDef := .mk t f desc en df items
    match d.typeD with
    | "string" =>
      let param_desc := pyLower desc
      if f = some "uri" || strContains param_desc "url" ||
          strContains param_desc "uri" then
        some (.str (normalize_url value))
      else some (.str value)
    | "integer" =>
      match pf (pyStrip (value.replace "," "")) with
      | some q => some (.int (pyTrunc q))
      | none => none
    | "number" =>
      match pf (pyStrip (value.replace "," "")) with
      | some q => some (.num q)
      | none => none
    | "boolean" =>
      if pyLower value ∈ ["true", "yes", "1"] then some (.bool true)
      else if pyLower value ∈ ["false", "no", "0"] then some (.bool false)
      else none
    | "array" =>
      let parts := (value.splitOn ",").map pyStrip
      match items with
      | some idef =>
        match parts.mapM (convertVal pf idef) with
        | some vs => some (.arr vs)
        | none => none
      | none => some (.arr (parts.map .str))
    | "null" => some .null
    | _ => some (.str value)

/-- A JSON Schema as the executor reads it: the ordered property table and
the required-key list. -/
structure JSchema where
  properties : List (String × ParamDef) := []
  required : List String := []

/-- `ParameterBuildResult` (src/executor/schema_executor.py:30-48). -/
structure ParameterBuildResult where
  success : Bool
  parameters : List (String × JVal)
  missing_required : List String := []
  validation_errors : List String := []
  mapping_log : List (String × String) := []
  metadata : List (String × Nat) := []

/-- The mutable state of the parameter loop in `build_parameters`. -/
structure BuildState where
  parameters : List (String × JVal) := []
  mapping_log : List (String × String) := []
  missing_required : List String := []
  used_entities : List Nat := []

/-- Assoc-list update for the string-valued mapping log. -/
def setKeyS : List (String × String) → String → String → List (String × String)
  | [], k, v => [(k, v)]
  | (k', v') :: t, k, v =>
    if k' = k then (k, v) :: t else (k', v') :: setKeyS t k v

/-- The skip set of the URL-token fallback
(src/executor/schema_executor.py:470). -/
def skip_verbs : List String :=
  ["navigate", "go", "open", "visit", "browse", "to", "show", "get", "fetch"]

/-- The free-text parameter names
(src/executor/schema_executor.py:486). -/
def freeTextParams : List String :=
  ["query", "content", "text", "message", "description"]

/-- Set one parameter and its mapping-log tag (`parameters[p] = v;
mapping_log[p] = tag`). -/
def fillParam (st : BuildState) (param_name : String) (v : JVal)
    (tag : String) : BuildState :=
  { st with parameters := setKey st.parameters param_name v,
            mapping_log := setKeyS st.mapping_log param_name tag }

/-- Stage (c), the URL-token fallback
(src/executor/schema_executor.py:465-483): for a property named `url`, of
format `uri`, or whose lowered description mentions "url", the first token
that is not a skip verb and has at least three characters. -/
def urlTokenFill (ents : EntityExtractionResult) (param_name : String)
    (d : ParamDef) : Option String :=
  if param_name = "url" || d.pformat = some "uri" ||
      strContains (pyLower d.pdescription) "url" then
    ents.tokens.find? (fun tok => !(pyLower tok ∈ skip_verbs) && 3 ≤ tok.length)
  else none

/-- Stage (d), the free-text fallback
(src/executor/schema_executor.py:485-494): joined noun chunks, else the
normalized input when non-empty. -/
def freeTextFill (ents : EntityExtractionResult) (param_name : String) :
    Option (JVal × String) :=
  if param_name ∈ freeTextParams then
    if ents.noun_chunks ≠ [] then
      some (.str (String.intercalate " " ents.noun_chunks), "noun_chunks")
    else if ents.normalized_text ≠ "" then
      some (.str ents.normalized_text, "full_text")
    else none
  else none

/-- Stages (c)-(g) of the per-property resolution: URL-token fallback,
free-text fallback, caller default, schema default, else record missing
when required (src/executor/schema_executor.py:465-510). -/
def fillRest (ents : EntityExtractionResult)
    (defaults : List (String × JVal)) (required : List String)
    (param_name : String) (d : ParamDef) (st : BuildState) : BuildState :=
  match urlTokenFill ents param_name d with
  | some tok => fillParam st param_name (.str (normalize_url tok)) ("token_url:" ++ tok)
  | none =>
    match freeTextFill ents param_name with
    | some (v, tag) => fillParam st param_name v tag
    | none =>
      match getKey defaults param_name with
      | some v => fillParam st param_name v "default"
      | none =>
        match d.pdefault with
        | some v => fillParam st param_name v "schema_default"
        | none =>
          if param_name ∈ required then
            { st with missing_required := st.missing_required ++ [param_name] }
          else st

/-- One iteration of the property loop of `build_parameters`
(src/executor/schema_executor.py:440-510): override, then best entity with
type conversion (the entity is consumed even when conversion fails), then
the fallbacks of `fillRest`. -/
def processParam (pf : String → Option ℚ) (ents : EntityExtractionResult)
    (defaults overrides : List (String × JVal)) (required : List String)
    (st : BuildState) (p : String × ParamDef) : BuildState :=
  match getKey overrides p.1 with
  | some v => fillParam st p.1 v "override"
  | none =>
    match find_best_entity pf ents.entities p.1 p.2 st.used_entities with
    | some (e, conf, idx) =>
      let st1 := { st with used_entities := st.used_entities ++ [idx] }
      match convertVal pf p.2 e.text with
      | some v =>
        fillParam st1 p.1 v ("entity:" ++ e.label ++ ":" ++ confTwoDecimals conf)
      | none => fillRest ents defaults required p.1 p.2 st1
    | none => fillRest ents defaults required p.1 p.2 st

/-- The property loop of `build_parameters`: fold `processParam` over the
schema's property table in declaration order. -/
def buildLoop (pf : String → Option ℚ) (ents : EntityExtractionResult)
    (defaults overrides : List (String × JVal)) (required : List String)
    (st : BuildState) : List (String × ParamDef) → BuildState
  | [] => st
  | p :: rest =>
    buildLoop pf ents defaults overrides required
      (processParam pf ents defaults overrides required st p) rest

/-- `SchemaExecutor.build_parameters`
(src/executor/schema_executor.py:401-533), with the `jsonschema` draft-7
validator as the oracle `validator` (it returns the collected error list;
validity is its emptiness).  When any required key is missing the
validator is not called and the error list stays empty; `success` is
validity conjoined with no missing keys. -/
def build_parameters (pf : String → Option ℚ)
    (validator : List (String × JVal) → JSchema → List String)
    (schema : JSchema) (ents : EntityExtractionResult)
    (defaults overrides : List (String × JVal)) : ParameterBuildResult :=
  let st := buildLoop pf ents defaults overrides schema.required {}
    schema.properties
  let validation_errors :=
    if st.missing_required = [] then validator st.parameters schema else []
  { success := st.missing_required.isEmpty && validation_errors.isEmpty,
    parameters := st.parameters,
    missing_required := st.missing_required,
    validation_errors := validation_errors,
    mapping_log := st.mapping_log,
    metadata := [("entities_used", st.used_entities.length),
                 ("entities_total", ents.entities.length),
                 ("params_built", st.parameters.length),
                 ("params_total", schema.properties.length)] }

/-- A schema whose required key `x` is not declared among the properties. -/
def schemaHiddenRequired : JSchema := { properties := [], required := ["x"] }

/-- A schema with one required string property `path`. -/
def schemaPathRequired : JSchema :=
  { properties := [("path", typedParam "string")], required := ["path"] }

/-- The empty extraction result. -/
def emptyEnts : EntityExtractionResult :=
  { original_text := "", normalized_text := "", entities := [],
    tokens := [], noun_chunks := [] }

/-! Helper lemmas about `pyStrip`, used by the idempotence claim. -/

theorem head?_dropWhile_false (p : Char → Bool) (l : List Char) (c : Char)
    (h : (l.dropWhile p).head? = some c) : p c = false := by
  induction l with
  | nil => simp [List.dropWhile] at h
  | cons a t ih =>
    by_cases hpa : p a = true
    · rw [List.dropWhile_cons_of_pos hpa] at h
      exact ih h
    · rw [List.dropWhile_cons_of_neg hpa] at h
      simp at h
      subst h
      simpa using hpa

theorem getLast?_of_suffix {s l : List Char} {c : Char}
    (hs : s <:+ l) (h : s.getLast? = some c) : l.getLast? = some c := by
  obtain ⟨t, rfl⟩ := hs
  cases s with
  | nil => simp at h
  | cons a s' =>
    rw [List.getLast?_append_of_ne_nil t (List.cons_ne_nil a s')]
    exact h

theorem pyStrip_getLast (s : String) (c : Char)
    (h : (pyStrip s).data.getLast? = some c) : pyIsSpace c = false := by
  unfold pyStrip at h
  rw [List.getLast?_reverse] at h
  exact head?_dropWhile_false _ _ _ h

theorem pyStrip_head (s : String) (c : Char)
    (h : (pyStrip s).data.head? = some c) : pyIsSpace c = false := by
  unfold pyStrip at h
  rw [List.head?_reverse] at h
  have hsuf : ((s.data.dropWhile pyIsSpace).reverse.dropWhile pyIsSpace) <:+
      (s.data.dropWhile pyIsSpace).reverse := List.dropWhile_suffix _
  have h2 := getLast?_of_suffix hsuf h
  rw [List.getLast?_reverse] at h2
  exact head?_dropWhile_false _ _ _ h2

theorem dropWhile_eq_self_of_head (p : Char → Bool) (l : List Char)
    (h : ∀ c, l.head? = some c → p c = false) : l.dropWhile p = l := by
  cases l with
  | nil => rfl
  | cons a t =>
    have ha : p a = false := h a rfl
    simp [List.dropWhile, ha]

theorem pyStrip_eq_self (s : String)
    (h1 : ∀ c, s.data.head? = some c → pyIsSpace c = false)
    (h2 : ∀ c, s.data.getLast? = some c → pyIsSpace c = false) :
    pyStrip s = s := by
  unfold pyStrip
  have e1 : s.data.dropWhile pyIsSpace = s.data :=
    dropWhile_eq_self_of_head _ _ h1
  rw [e1]
  have e2 : s.data.reverse.dropWhile pyIsSpace = s.data.reverse := by
    apply dropWhile_eq_self_of_head
    intro c hc
    rw [List.head?_reverse] at hc
    exact h2 c hc
  rw [e2]
  simp

theorem pyStrip_idem (s : String) : pyStrip (pyStrip s) = pyStrip s :=
  pyStrip_eq_self _ (pyStrip_head s) (pyStrip_getLast s)

theorem pyStrip_append (p x : String)
    (hpn : p.data ≠ [])
    (hph : ∀ c, p.data.head? = some c → pyIsSpace c = false)
    (hxn : x.data ≠ [])
    (hx : ∀ c, x.data.getLast? = some c → pyIsSpace c = false) :
    pyStrip (p ++ x) = p ++ x := by
  apply pyStrip_eq_self
  · intro c hc
    rw [String.data_append] at hc
    rcases hd : p.data with _ | ⟨a, t⟩
    · exact absurd hd hpn
    · rw [hd, List.cons_append, List.head?_cons] at hc
      exact hph c (by rw [hd, List.head?_cons]; exact hc)
  · intro c hc
    rw [String.data_append, List.getLast?_append_of_ne_nil _ hxn] at hc
    exact hx c hc

theorem strStarts_append (p x : String) : strStarts (p ++ x) p = true := by
  simp [strStarts, List.isPrefixOf_iff_prefix, String.data_append]

theorem stripNonempty_of_hasChar (s : String) (c : Char)
    (h : strHasChar (pyStrip s) c = true) : (pyStrip s).data ≠ [] := by
  intro hnil
  rw [strHasChar, hnil] at h
  simp at h

theorem stripNonempty_of_starts (s t : String)
    (hn : t.data ≠ [])
    (h : strStarts (pyStrip s) t = true) : (pyStrip s).data ≠ [] := by
  intro hnil
  rw [strStarts, hnil] at h
  rw [List.isPrefixOf_iff_prefix] at h
  have := List.prefix_nil.mp h
  exact hn this

theorem normalize_url_shape (s : String) :
    hasProtocol (normalize_url s) = true ∧
    pyStrip (normalize_url s) = normalize_url s := by
  unfold normalize_url
  cases hp : hasProtocol (pyStrip s) with
  | true =>
    simp only [hp, if_true]
    exact ⟨trivial, pyStrip_idem s⟩
  | false =>
    simp only [hp, Bool.false_eq_true, if_false]
    constructor
    · unfold hasProtocol
      rw [strStarts_append]
      simp
    · apply pyStrip_append
      · decide
      · intro c hc
        simp at hc
        subst hc
        decide
      · cases hd : (!strHasChar (pyStrip s) '.' && !strStarts (pyStrip s) "localhost") with
        | true =>
          simp only [hd, if_true]
          simp [String.data_append]
        | false =>
          simp only [hd, Bool.false_eq_true, if_false]
          rcases Bool.and_eq_false_iff.mp hd with h | h
          · exact stripNonempty_of_hasChar s '.' (by simpa using h)
          · exact stripNonempty_of_starts s "localhost" (by decide) (by simpa using h)
      · intro c hc
        cases hd : (!strHasChar (pyStrip s) '.' && !strStarts (pyStrip s) "localhost") with
        | true =>
          rw [hd, if_pos rfl] at hc
          rw [String.data_append, List.getLast?_append_of_ne_nil _ (by decide)] at hc
          have : c = 'm' := by simpa using hc.symm
          subst this
          decide
        | false =>
          rw [hd, if_neg (by simp)] at hc
          exact pyStrip_getLast s c hc

theorem normalize_url_fixed (r : String)
    (h1 : hasProtocol r = true) (h2 : pyStrip r = r) :
    normalize_url r = r := by
  unfold normalize_url
  simp only [h2, h1, if_pos rfl, if_true]

/-- C7: for every input string, URL normalization returns the trimmed string
unchanged when it starts with `http://`, `https://`, `ftp://` or `file://`;
otherwise it prefixes `https://` to the trimmed string, after first appending
`.com` when the trimmed string has no dot and does not start with
`localhost`.  In particular `"google"` normalizes to `"https://google.com"`. -/
theorem normalize_url_spec :
    (∀ s, normalize_url s = normalizeUrlClaimed s) ∧
    normalize_url "google" = "https://google.com" := by
  constructor
  · intro s
    unfold normalize_url normalizeUrlClaimed
    cases hp : hasProtocol (pyStrip s) with
    | true => simp only [hp, if_true]
    | false =>
      simp only [hp, Bool.false_eq_true, if_false]
      cases hd : (!strHasChar (pyStrip s) '.' && !strStarts (pyStrip s) "localhost") with
      | true => simp only [hd, if_pos rfl, if_true]
      | false => simp [hd]
  · decide

/-- C10: URL normalization is idempotent — a second pass through
`_normalize_url` never alters the result of a first pass. -/
theorem normalize_url_idempotent (s : String) :
    normalize_url (normalize_url s) = normalize_url s :=
  normalize_url_fixed _ (normalize_url_shape s).1 (normalize_url_shape s).2

/-! ## Claims C1 and C4: forced overrides -/

theorem find_match_of_mem (rs : String → String → Bool)
    (l : List ForcedOverride) (text : String)
    (h : ∃ o ∈ l, o.matches rs text = true) :
    ∃ o ∈ l, o.matches rs text = true ∧
      find_match rs l text = some (o.target_intent, o.pattern) := by
  induction l with
  | nil => simp at h
  | cons x xs ih =>
    by_cases hx : x.matches rs text = true
    · exact ⟨x, by simp, hx, by simp [find_match, hx]⟩
    · have h' : ∃ o ∈ xs, o.matches rs text = true := by
        obtain ⟨o, ho, hm⟩ := h
        rcases List.mem_cons.mp ho with rfl | ho'
        · exact absurd hm hx
        · exact ⟨o, ho', hm⟩
      obtain ⟨o, ho, hm, hfm⟩ := ih h'
      exact ⟨o, List.mem_cons_of_mem _ ho, hm, by
        rw [find_match, if_neg (by simpa using hx)]
        exact hfm⟩

/-- C1 (counterexample): an enabled override of kind `exact` with the empty
pattern matches the whitespace-only text `" "`, yet `classify` on `" "`
takes the empty-input early return and produces an unforced `unknown`
result with confidence 0 — not the override's intent with confidence 1. -/
theorem classify_blank_counterexample :
    ForcedOverride.matches (fun _ _ => false) blankOverride " " = true ∧
    classify (fun _ _ => false) [blankOverride] untrainedClassifier " " =
      { intent := "unknown", confidence := 0,
        metadata := [("error", "empty_input")] } := by
  constructor
  · decide
  · rfl

/-- C1 (amended): a disabled override never matches any text; and for every
input whose stripped text is non-empty, if any enabled override in the
registry matches, `classify` returns the first matching override's target
intent with confidence 1.0 and `is_forced`, and the classifier state is
never consulted (the result is the same for every classifier).  The
amendment restricts the claim to inputs that are not whitespace-only:
`classify` returns early on those before consulting the overrides. -/
theorem classify_forced_override_supremacy :
    (∀ rs (o : ForcedOverride) t, o.enabled = false →
      o.matches rs t = false) ∧
    (∀ rs overrides clf text, pyStrip text ≠ "" →
      (∃ o ∈ overrides, o.matches rs text = true) →
      ∃ o ∈ overrides, o.matches rs text = true ∧
        classify rs overrides clf text =
          { intent := o.target_intent, confidence := 1, is_forced := true,
            matched_pattern := some o.pattern,
            metadata := [("source", "forced_override")] } ∧
        ∀ clf', classify rs overrides clf' text =
          classify rs overrides clf text) := by
  constructor
  · intro rs o t he
    unfold ForcedOverride.matches
    rw [he]
    simp
  · intro rs overrides clf text hne hex
    obtain ⟨o, ho, hm, hfm⟩ := find_match_of_mem rs overrides text hex
    have h0 : text ≠ "" := by
      intro h
      apply hne
      rw [h]
      rfl
    have key : ∀ c : IntentClassifier, classify rs overrides c text =
        { intent := o.target_intent, confidence := 1, is_forced := true,
          matched_pattern := some o.pattern,
          metadata := [("source", "forced_override")] } := by
      intro c
      unfold classify
      rw [if_neg (by simp [h0, hne]), hfm]
    exact ⟨o, ho, hm, key clf, fun clf' => (key clf').trans (key clf).symm⟩

/-- C1 (witness): the default registry and the text `"help"` instantiate the
amended supremacy theorem; the classification is forced with confidence 1. -/
theorem classify_forced_override_supremacy_witness :
    (classify pyReSearch DEFAULT_OVERRIDES untrainedClassifier "help").is_forced
      = true ∧
    (classify pyReSearch DEFAULT_OVERRIDES untrainedClassifier "help").confidence
      = 1 := by
  obtain ⟨o, -, -, heq, -⟩ :=
    classify_forced_override_supremacy.2 pyReSearch DEFAULT_OVERRIDES
      untrainedClassifier "help" (by decide)
      ⟨helpOverride, by decide, by decide⟩
  rw [heq]
  exact ⟨rfl, rfl⟩

/-- C4: on the freshly initialized registry (`__init__` copies
`DEFAULT_OVERRIDES` without sorting) the text `"list files screenshot"` is
matched both by the `list_files` override (priority 100, declared first)
and by the `browser_screenshot` override (priority 150); `find_match`
returns `list_files`, not the highest-priority match, because iteration
follows declaration order.  This evaluates the code at the failing input of
the priority claim. -/
theorem find_match_fresh_registry_ignores_priority :
    find_match pyReSearch DEFAULT_OVERRIDES "list files screenshot" =
      some ("list_files", "^(list|show|get)\\s+(files?|directory|dir|folder)") ∧
    ∃ o ∈ DEFAULT_OVERRIDES, o.matches pyReSearch "list files screenshot" = true ∧
      o.target_intent = "browser_screenshot" ∧ o.priority = 150 ∧
      (100 : Int) < 150 := by
  refine ⟨by decide, ?_⟩
  exact ⟨screenshotOverride, by decide, by decide, rfl, rfl, by decide⟩

/-! ## Claims C2 and C3: rule evaluation -/

theorem evalRules_first_deny (ctx : RuleCtx) (r : Rule)
    (he : r.enabled = true) (hl : r.logic ctx = true)
    (hd : r.decision_on_match = .deny) :
    ∀ (pre : List Rule) matched dec mods total total' (post post' : List Rule),
    (∀ r' ∈ pre, r'.enabled = true → r'.logic ctx = true →
      r'.decision_on_match ≠ .deny) →
    (evalRules ctx total (pre ++ r :: post) matched dec mods).decision = .deny ∧
    (evalRules ctx total (pre ++ r :: post) matched dec mods).reason =
      some r.description ∧
    evalRules ctx total' (pre ++ r :: post') matched dec mods =
      evalRules ctx total (pre ++ r :: post) matched dec mods := by
  intro pre
  induction pre with
  | nil =>
    intro matched dec mods total total' post post' _
    refine ⟨?_, ?_, ?_⟩ <;>
      simp only [List.nil_append, evalRules, he, hl, hd, Bool.not_true,
        Bool.false_eq_true, if_false, if_true]
  | cons x pre' ih =>
    intro matched dec mods total total' post post' hpre
    have hx := hpre x (List.mem_cons_self x pre')
    have hrest : ∀ r' ∈ pre', r'.enabled = true → r'.logic ctx = true →
        r'.decision_on_match ≠ .deny :=
      fun r' hr' => hpre r' (List.mem_cons_of_mem _ hr')
    by_cases hxe : x.enabled = true
    · by_cases hxl : x.logic ctx = true
      · have hxd : x.decision_on_match ≠ .deny := hx hxe hxl
        cases hdm : x.decision_on_match with
        | deny => exact absurd hdm hxd
        | allow =>
          simp only [List.cons_append, evalRules, hxe, hxl, hdm,
            Bool.not_true, Bool.false_eq_true, if_false, if_true]
          exact ih _ _ _ _ _ _ _ hrest
        | modify =>
          simp only [List.cons_append, evalRules, hxe, hxl, hdm,
            Bool.not_true, Bool.false_eq_true, if_false, if_true]
          exact ih _ _ _ _ _ _ _ hrest
      · have hxl' : x.logic ctx = false := by simpa using hxl
        simp only [List.cons_append, evalRules, hxe, hxl',
          Bool.not_true, Bool.false_eq_true, if_false, if_true]
        exact ih _ _ _ _ _ _ _ hrest
    · have hxe' : x.enabled = false := by simpa using hxe
      simp only [List.cons_append, evalRules, hxe', Bool.not_false, if_true]
      exact ih _ _ _ _ _ _ _ hrest

/-- C2: in any stored rule list, when evaluation reaches the first enabled
matching rule whose decision is deny, the result is deny with that rule's
description as reason, and the rules after it are never evaluated: the
result is unchanged under any replacement of the suffix. -/
theorem rule_first_deny_terminal (ctx : RuleCtx) (pre post : List Rule)
    (r : Rule) (he : r.enabled = true) (hl : r.logic ctx = true)
    (hd : r.decision_on_match = .deny)
    (hpre : ∀ r' ∈ pre, r'.enabled = true → r'.logic ctx = true →
      r'.decision_on_match ≠ .deny) :
    (RuleEngine_evaluate (pre ++ r :: post) ctx).decision = .deny ∧
    (RuleEngine_evaluate (pre ++ r :: post) ctx).reason = some r.description ∧
    ∀ post', RuleEngine_evaluate (pre ++ r :: post') ctx =
      RuleEngine_evaluate (pre ++ r :: post) ctx := by
  have h := evalRules_first_deny ctx r he hl hd pre [] .allow []
  refine ⟨(h (pre ++ r :: post).length (pre ++ r :: post).length post post hpre).1,
    (h (pre ++ r :: post).length (pre ++ r :: post).length post post hpre).2.1,
    fun post' =>
      (h (pre ++ r :: post).length (pre ++ r :: post').length post post' hpre).2.2⟩

/-- C2 (witness): with an always-matching allow rule before an
always-matching deny rule and a modify rule after it, evaluation stops at
the deny rule with its description as reason. -/
theorem rule_first_deny_terminal_witness :
    (RuleEngine_evaluate [alwaysAllowRule, alwaysDenyRule, alwaysModifyRule]
      {}).decision = .deny ∧
    (RuleEngine_evaluate [alwaysAllowRule, alwaysDenyRule, alwaysModifyRule]
      {}).reason = some "always deny" := by
  have h := rule_first_deny_terminal {} [alwaysAllowRule] [alwaysModifyRule]
    alwaysDenyRule rfl rfl rfl
    (by
      intro r' hr'
      rw [List.mem_singleton] at hr'
      subst hr'
      intro _ _ hdm
      simp [alwaysAllowRule] at hdm)
  exact ⟨h.1, h.2.1⟩

/-- C3: with the seeded default rules (sorted by priority, as the engine's
constructor stores them), an admin context with unforced intent confidence
0.3 < 0.7 is DENIED, not allowed: the admin-confidence-bypass rule matches
first but its ALLOW is not terminal, and the lower-priority
confidence-threshold DENY rule then terminates evaluation.  The rule's own
description ("Admin users can bypass low confidence") and the claim expect
allow; the code produces deny. -/
theorem admin_confidence_bypass_ineffective :
    evaluate_rules adminLowConfCtx =
      { decision := .deny,
        matched_rules := ["admin_confidence_bypass", "confidence_threshold"],
        reason := some "Deny if intent confidence is below threshold",
        modifications := [],
        metadata := [("terminal_rule", "confidence_threshold")] } := by
  rfl

theorem INTENT_CONFIDENCE_THRESHOLD_val : INTENT_CONFIDENCE_THRESHOLD = 7/10 := by
  rw [INTENT_CONFIDENCE_THRESHOLD, Rat.mk'_eq_divInt, Rat.divInt_eq_div]
  norm_num

theorem adminLowConfCtx_val : adminLowConfCtx.intent_confidence = 3/10 := by
  show Rat.mk' 3 10 (by norm_num) (by norm_num) = 3/10
  rw [Rat.mk'_eq_divInt, Rat.divInt_eq_div]
  norm_num

/-! ## Claim C6: entity deduplication -/

theorem entKeyLe_trans {a b c : ExtractedEntity}
    (h1 : entKeyLe a b) (h2 : entKeyLe b c) : entKeyLe a c := by
  unfold entKeyLe at *
  omega

theorem entKeyLt_le {a b : ExtractedEntity}
    (h : entKeyLt a b = true) : entKeyLe a b := by
  unfold entKeyLt at h
  unfold entKeyLe
  simp only [Bool.or_eq_true, Bool.and_eq_true, beq_iff_eq, decide_eq_true_eq] at h
  omega

theorem entKeyLt_false_le {a b : ExtractedEntity}
    (h : entKeyLt a b = false) : entKeyLe b a := by
  unfold entKeyLt at h
  unfold entKeyLe
  rcases Bool.or_eq_false_iff.mp h with ⟨h1, h2⟩
  have h1' : ¬ a.start < b.start := by simpa using h1
  rcases Bool.and_eq_false_iff.mp h2 with h3 | h3
  · have h3' : a.start ≠ b.start := by simpa using h3
    omega
  · have h3' : ¬ entPref a < entPref b := by simpa using h3
    omega

theorem mem_insertEnt {x e : ExtractedEntity} {l : List ExtractedEntity} :
    x ∈ insertEnt e l ↔ x = e ∨ x ∈ l := by
  induction l with
  | nil => simp [insertEnt]
  | cons y ys ih =>
    unfold insertEnt
    by_cases h : entKeyLt e y = true
    · rw [if_pos h]
      simp
    · rw [if_neg h]
      simp [ih]
      tauto

theorem pairwise_insertEnt {e : ExtractedEntity} {l : List ExtractedEntity}
    (hl : List.Pairwise entKeyLe l) :
    List.Pairwise entKeyLe (insertEnt e l) := by
  induction l with
  | nil => simp [insertEnt]
  | cons y ys ih =>
    rcases List.pairwise_cons.mp hl with ⟨hy, hys⟩
    unfold insertEnt
    by_cases h : entKeyLt e y = true
    · rw [if_pos h]
      refine List.pairwise_cons.mpr ⟨?_, hl⟩
      intro z hz
      rcases List.mem_cons.mp hz with rfl | hz'
      · exact entKeyLt_le h
      · exact entKeyLe_trans (entKeyLt_le h) (hy z hz')
    · rw [if_neg h]
      refine List.pairwise_cons.mpr ⟨?_, ih hys⟩
      intro z hz
      rcases mem_insertEnt.mp hz with rfl | hz'
      · exact entKeyLt_false_le (by simpa using h)
      · exact hy z hz'

theorem pairwise_foldl_insert :
    ∀ (l : List ExtractedEntity) (acc : List ExtractedEntity),
    List.Pairwise entKeyLe acc →
    List.Pairwise entKeyLe (l.foldl (fun a e => insertEnt e a) acc)
  | [], _, h => h
  | x :: xs, acc, h =>
    pairwise_foldl_insert xs (insertEnt x acc) (pairwise_insertEnt h)

theorem pairwise_sortEntities (l : List ExtractedEntity) :
    List.Pairwise entKeyLe (sortEntities l) :=
  pairwise_foldl_insert l [] (by simp)

theorem mem_foldl_insert :
    ∀ (l acc : List ExtractedEntity) (x : ExtractedEntity),
    x ∈ l.foldl (fun a e => insertEnt e a) acc ↔ x ∈ acc ∨ x ∈ l := by
  intro l
  induction l with
  | nil => simp
  | cons y ys ih =>
    intro acc x
    simp only [List.foldl_cons]
    rw [ih]
    rw [mem_insertEnt]
    simp
    tauto

theorem mem_sortEntities {x : ExtractedEntity} {l : List ExtractedEntity} :
    x ∈ sortEntities l ↔ x ∈ l := by
  unfold sortEntities
  rw [mem_foldl_insert]
  simp

theorem mem_dedupGo_subset :
    ∀ (l : List ExtractedEntity) (le : Int) (x : ExtractedEntity),
    x ∈ dedupGo le l → x ∈ l := by
  intro l
  induction l with
  | nil => simp [dedupGo]
  | cons e rest ih =>
    intro le x hx
    unfold dedupGo at hx
    by_cases hc : le ≤ (e.start : Int)
    · rw [if_pos hc] at hx
      rcases List.mem_cons.mp hx with rfl | hx'
      · exact List.mem_cons_self _ _
      · exact List.mem_cons_of_mem _ (ih _ _ hx')
    · rw [if_neg hc] at hx
      exact List.mem_cons_of_mem _ (ih _ _ hx)

theorem dedupGo_start_ge :
    ∀ (l : List ExtractedEntity) (le : Int) (x : ExtractedEntity),
    (∀ e ∈ l, e.start ≤ e.stop) →
    x ∈ dedupGo le l → le ≤ (x.start : Int) := by
  intro l
  induction l with
  | nil => simp [dedupGo]
  | cons e rest ih =>
    intro le x wf hx
    have wfe : e.start ≤ e.stop := wf e (List.mem_cons_self _ _)
    have wfr : ∀ e' ∈ rest, e'.start ≤ e'.stop :=
      fun e' h => wf e' (List.mem_cons_of_mem _ h)
    unfold dedupGo at hx
    by_cases hc : le ≤ (e.start : Int)
    · rw [if_pos hc] at hx
      rcases List.mem_cons.mp hx with rfl | hx'
      · exact hc
      · have := ih (e.stop : Int) x wfr hx'
        omega
    · rw [if_neg hc] at hx
      exact ih le x wfr hx

theorem dedupGo_head_ge :
    ∀ (l : List ExtractedEntity) (le : Int) (x : ExtractedEntity),
    (dedupGo le l).head? = some x → le ≤ (x.start : Int) := by
  intro l
  induction l with
  | nil => simp [dedupGo]
  | cons e rest ih =>
    intro le x hx
    unfold dedupGo at hx
    by_cases hc : le ≤ (e.start : Int)
    · rw [if_pos hc] at hx
      simp at hx
      subst hx
      exact hc
    · rw [if_neg hc] at hx
      exact ih le x hx

theorem dedupGo_chain :
    ∀ (l : List ExtractedEntity) (le : Int),
    List.Chain' (fun a b => a.stop ≤ b.start) (dedupGo le l) := by
  intro l
  induction l with
  | nil => intro le; simp [dedupGo]
  | cons e rest ih =>
    intro le
    unfold dedupGo
    by_cases hc : le ≤ (e.start : Int)
    · rw [if_pos hc]
      rw [List.chain'_cons']
      refine ⟨?_, ih _⟩
      intro y hy
      have := dedupGo_head_ge rest (e.stop : Int) y hy
      omega
    · rw [if_neg hc]
      exact ih le

theorem dedupGo_excl_lower (a b : ExtractedEntity)
    (hab : a.start < b.start) (hba : b.start < a.stop) :
    ∀ (l : List ExtractedEntity) (le : Int),
    (∀ e ∈ l, e.start ≤ e.stop) → List.Pairwise entKeyLe l →
    a ∈ dedupGo le l → b ∈ l → b ∉ dedupGo le l := by
  intro l
  induction l with
  | nil => simp [dedupGo]
  | cons x xs ih =>
    intro le wf pw ha hb hbIn
    rcases List.pairwise_cons.mp pw with ⟨hx, pxs⟩
    have wfxs : ∀ e ∈ xs, e.start ≤ e.stop :=
      fun e h => wf e (List.mem_cons_of_mem _ h)
    by_cases hc : le ≤ (x.start : Int)
    · rw [dedupGo, if_pos hc] at ha hbIn
      have hbx : b ≠ x := by
        intro hb_eq
        subst hb_eq
        rcases List.mem_cons.mp ha with ha' | ha'
        · subst ha'
          omega
        · have haxs := mem_dedupGo_subset _ _ _ ha'
          have := hx a haxs
          unfold entKeyLe at this
          omega
      rcases List.mem_cons.mp hbIn with hb_eq | hbIn'
      · exact hbx hb_eq
      · rcases List.mem_cons.mp ha with ha' | ha'
        · subst ha'
          have := dedupGo_start_ge xs (a.stop : Int) b wfxs hbIn'
          omega
        · have hb' : b ∈ xs := by
            rcases List.mem_cons.mp hb with hb_eq | hb''
            · exact absurd hb_eq hbx
            · exact hb''
          exact ih (x.stop : Int) wfxs pxs ha' hb' hbIn'
    · rw [dedupGo, if_neg hc] at ha hbIn
      rcases List.mem_cons.mp hb with hb_eq | hb'
      · subst hb_eq
        have := dedupGo_start_ge xs le b wfxs hbIn
        omega
      · exact ih le wfxs pxs ha hb' hbIn

theorem dedupGo_excl_tie (a b : ExtractedEntity)
    (heq : a.start = b.start) (hstop : a.start < a.stop)
    (hpa : entPref a = 0) (hpb : entPref b = 1) :
    ∀ (l : List ExtractedEntity) (le : Int),
    (∀ e ∈ l, e.start ≤ e.stop) → List.Pairwise entKeyLe l →
    a ∈ l → b ∈ l → b ∉ dedupGo le l := by
  intro l
  induction l with
  | nil => simp [dedupGo]
  | cons x xs ih =>
    intro le wf pw ha hb hbIn
    rcases List.pairwise_cons.mp pw with ⟨hx, pxs⟩
    have wfxs : ∀ e ∈ xs, e.start ≤ e.stop :=
      fun e h => wf e (List.mem_cons_of_mem _ h)
    have hab : a ≠ b := by
      intro h
      rw [h, hpb] at hpa
      exact absurd hpa (by simp)
    by_cases hc : le ≤ (x.start : Int)
    · rw [dedupGo, if_pos hc] at hbIn
      have hbx : b ≠ x := by
        intro hb_eq
        subst hb_eq
        have ha' : a ∈ xs := by
          rcases List.mem_cons.mp ha with h | h
          · exact absurd h hab
          · exact h
        have := hx a ha'
        unfold entKeyLe at this
        omega
      rcases List.mem_cons.mp hbIn with hb_eq | hbIn'
      · exact hbx hb_eq
      · rcases List.mem_cons.mp ha with ha' | ha'
        · subst ha'
          have := dedupGo_start_ge xs (a.stop : Int) b wfxs hbIn'
          omega
        · have hb' : b ∈ xs := by
            rcases List.mem_cons.mp hb with hb_eq | hb''
            · exact absurd hb_eq hbx
            · exact hb''
          exact ih (x.stop : Int) wfxs pxs ha' hb' hbIn'
    · rw [dedupGo, if_neg hc] at hbIn
      rcases List.mem_cons.mp ha with ha' | ha'
      · subst ha'
        have := dedupGo_start_ge xs le b wfxs hbIn
        omega
      · by_cases hbx : b = x
        · subst hbx
          have := dedupGo_start_ge xs le b wfxs hbIn
          omega
        · have hb' : b ∈ xs := by
            rcases List.mem_cons.mp hb with hb_eq | hb''
            · exact absurd hb_eq hbx
            · exact hb''
          exact ih le wfxs pxs ha' hb' hbIn

theorem dedup_chain (l : List ExtractedEntity) :
    List.Chain' (fun a b => a.stop ≤ b.start) (deduplicate_entities l) := by
  unfold deduplicate_entities
  by_cases h : l.isEmpty
  · rw [if_pos h]
    rw [List.isEmpty_iff] at h
    subst h
    simp
  · rw [if_neg h]
    exact dedupGo_chain _ _

/-- C6 (counterexample): with three candidates — a regex URL spanning 0-10,
an NER entity spanning 0-3 and an NER entity spanning 5-6 — the 0-10
candidate overlaps the 5-6 candidate and has the lower start, yet it is the
one dropped (the 0-3 entity knocked it out first) while 5-6 is kept.  So
"the lower start offset is kept" is false as stated. -/
theorem dedup_lower_start_dropped_counterexample :
    deduplicate_entities [entWideUrl, entShortOrg, entLatePerson] =
      [entShortOrg, entLatePerson] ∧
    entWideUrl.start < entLatePerson.start ∧
    entLatePerson.start < entWideUrl.stop ∧
    entWideUrl ∉ deduplicate_entities [entWideUrl, entShortOrg, entLatePerson] ∧
    entLatePerson ∈ deduplicate_entities [entWideUrl, entShortOrg, entLatePerson] := by
  refine ⟨by decide, by decide, by decide, by decide, by decide⟩

/-- C6 (amended): the entity sequence produced by `extract` is always
non-overlapping in the claimed sense (adjacent entities satisfy
`next.start ≥ previous.end`); and for candidate lists whose entities are
well-formed (`start ≤ end`), overlap resolution prefers the lower start
offset pairwise — if the lower-start candidate is kept, the higher-start
one is dropped — and on equal start offsets the regex-sourced candidate is
always dropped in favour of the NER side.  (A lower-start candidate can
itself be dropped by an earlier kept candidate, in which case the
higher-start one may survive; the counterexample shows the original
unconditional phrasing fails.) -/
theorem entity_dedup_invariants :
    (∀ (O : NlpOracle) (text : String),
      List.Chain' (fun a b => a.stop ≤ b.start) (extract O text).entities) ∧
    (∀ (l : List ExtractedEntity) (a b : ExtractedEntity),
      (∀ e ∈ l, e.start ≤ e.stop) →
      a.start < b.start → b.start < a.stop →
      a ∈ deduplicate_entities l → b ∈ l → b ∉ deduplicate_entities l) ∧
    (∀ (l : List ExtractedEntity) (a b : ExtractedEntity),
      (∀ e ∈ l, e.start ≤ e.stop) →
      a.start = b.start → a.start < a.stop →
      entIsNer a = true → entIsNer b = false →
      a ∈ l → b ∈ l → b ∉ deduplicate_entities l) := by
  refine ⟨?_, ?_, ?_⟩
  · intro O text
    unfold extract
    by_cases h : (text = "" || pyStrip text = "") = true
    · rw [if_pos h]
      simp
    · rw [if_neg h]
      exact dedup_chain _
  · intro l a b wf hab hba ha hb
    unfold deduplicate_entities at ha ⊢
    by_cases h : l.isEmpty
    · rw [List.isEmpty_iff] at h
      subst h
      simp at hb
    · rw [if_neg h] at ha ⊢
      exact dedupGo_excl_lower a b hab hba (sortEntities l) (-1)
        (fun e he => wf e (mem_sortEntities.mp he))
        (pairwise_sortEntities l) ha (mem_sortEntities.mpr hb)
  · intro l a b wf heq hstop hna hnb ha hb
    unfold deduplicate_entities
    by_cases h : l.isEmpty
    · rw [List.isEmpty_iff] at h
      subst h
      simp at hb
    · rw [if_neg h]
      exact dedupGo_excl_tie a b heq hstop
        (by simp [entPref, hna]) (by simp [entPref, hnb]) (sortEntities l) (-1)
        (fun e he => wf e (mem_sortEntities.mp he))
        (pairwise_sortEntities l)
        (mem_sortEntities.mpr ha) (mem_sortEntities.mpr hb)

/-- C6 (witness): with exactly two overlapping candidates — an NER entity
at 0-5 (kept) and a regex entity at 3-6 — the higher-start candidate is
dropped, instantiating the amended pairwise statement. -/
theorem entity_dedup_invariants_witness :
    entSecondRegex ∉ deduplicate_entities [entFirstNer, entSecondRegex] :=
  entity_dedup_invariants.2.1 [entFirstNer, entSecondRegex]
    entFirstNer entSecondRegex
    (by decide) (by decide) (by decide) (by decide) (by decide)

/-! ## Claims C8 and C9: MCP client -/

/-- C8: `call_tool` always returns a structured result — −32000 with no
connection, −32001 when uninitialized, −32002 on timeout, −32603 on any
other internal exception — and on success lifts the text of a leading
`{type: "text", text: ...}` content block into `content`. -/
theorem call_tool_error_codes :
    (∀ conns send sid tool args, lookupConn conns sid = none →
      call_tool conns send sid tool args =
        { success := false, error := some ("Server not connected: " ++ sid),
          error_code := some (-32000) }) ∧
    (∀ conns send sid tool args c, lookupConn conns sid = some c →
      c.is_initialized = false →
      call_tool conns send sid tool args =
        { success := false, error := some ("Server not initialized: " ++ sid),
          error_code := some (-32001) }) ∧
    (∀ conns sid tool args c, lookupConn conns sid = some c →
      c.is_initialized = true →
      call_tool conns .timeoutRaised sid tool args =
        { success := false, error := some "Request timed out",
          error_code := some (-32002) }) ∧
    (∀ conns sid tool args c msg, lookupConn conns sid = some c →
      c.is_initialized = true →
      call_tool conns (.raised msg) sid tool args =
        { success := false, error := some msg, error_code := some (-32603) }) ∧
    (∀ conns sid tool args c r fields ff rest txt,
      lookupConn conns sid = some c → c.is_initialized = true →
      r.error = none → r.result = some (.obj fields) →
      getKey fields "content" = some (.arr (.obj ff :: rest)) →
      getKey ff "type" = some (.str "text") →
      getKey ff "text" = some txt →
      call_tool conns (.resp r) sid tool args =
        { success := true, content := txt,
          metadata := [("server_id", sid), ("tool_name", tool)] }) := by
  refine ⟨?_, ?_, ?_, ?_, ?_⟩
  · intro conns send sid tool args h
    unfold call_tool
    rw [h]
  · intro conns send sid tool args c h hi
    unfold call_tool
    rw [h]
    simp [hi]
  · intro conns sid tool args c h hi
    unfold call_tool
    rw [h]
    simp [hi]
  · intro conns sid tool args c msg h hi
    unfold call_tool
    rw [h]
    simp [hi]
  · intro conns sid tool args c r fields ff rest txt h hi herr hres hcont htype htxt
    unfold call_tool
    rw [h]
    simp only [hi, Bool.not_true, Bool.false_eq_true, if_false, if_true]
    have hie : r.is_error = false := by
      unfold JsonRpcResponse.is_error
      rw [herr]
      rfl
    rw [hie]
    simp only [Bool.false_eq_true, if_false, hres, Option.getD_some, hcont,
      htype, htxt]
    simp

/-- C8 (witness): an empty connection map yields the disconnected error
code −32000. -/
theorem call_tool_error_codes_witness :
    call_tool [] (.resp {}) "srv1" "echo" [] =
      { success := false, error := some "Server not connected: srv1",
        error_code := some (-32000) } :=
  call_tool_error_codes.1 [] (.resp {}) "srv1" "echo" [] rfl

theorem lookupConn_eq_none_of_not_mem (conns : List (String × MCPServerConnection))
    (sid : String) (h : sid ∉ conns.map Prod.fst) :
    lookupConn conns sid = none := by
  induction conns with
  | nil => rfl
  | cons kv t ih =>
    unfold lookupConn
    rw [List.map_cons, List.mem_cons] at h
    push_neg at h
    rw [if_neg (by exact fun he => h.1 (by rw [he]))]
    exact ih h.2

theorem lookupConn_removeConn_self (conns : List (String × MCPServerConnection))
    (sid : String) (h : (conns.map Prod.fst).Nodup) :
    lookupConn (removeConn conns sid) sid = none := by
  induction conns with
  | nil => rfl
  | cons kv t ih =>
    rw [List.map_cons, List.nodup_cons] at h
    unfold removeConn
    by_cases hk : kv.1 = sid
    · rw [if_pos hk]
      exact lookupConn_eq_none_of_not_mem t sid (by rw [← hk]; exact h.1)
    · rw [if_neg hk]
      unfold lookupConn
      rw [if_neg hk]
      exact ih h.2

theorem lookupConn_append_self (conns : List (String × MCPServerConnection))
    (sid : String) (c : MCPServerConnection)
    (h : lookupConn conns sid = none) :
    lookupConn (conns ++ [(sid, c)]) sid = some c := by
  induction conns with
  | nil => simp [lookupConn]
  | cons kv t ih =>
    rcases kv with ⟨k, v⟩
    simp only [lookupConn, List.cons_append] at h ⊢
    by_cases hk : k = sid
    · rw [if_pos hk] at h
      exact absurd h (by simp)
    · rw [if_neg hk] at h ⊢
      exact ih h

/-- C9 (counterexample): against a server that advertises tools and then
fails the tools/list request with a JSON-RPC error, `connect_server`
reports success and an initialized connection (with an empty tool catalog)
remains registered — the handshake is not torn down. -/
theorem connect_server_tools_failure_counterexample :
    (connect_server toolsFailScript [] "srv").1 = true ∧
    lookupConn (connect_server toolsFailScript [] "srv").2 "srv" =
      some { server_id := "srv",
             capabilities := some { tools := true },
             tools := [], is_initialized := true } := by
  exact ⟨rfl, rfl⟩

/-- C9 (amended): an initialize failure (error response) tears the
connection down — `connect_server` reports failure and nothing stays
registered; but a tools/list failure (error response or exception) is
non-fatal: `_discover_tools` swallows it, `connect_server` reports success
and the initialized connection stays registered with an empty tool
catalog. -/
theorem connect_server_teardown_semantics :
    (∀ (S : TransportScript) conns sid r,
      (conns.map Prod.fst).Nodup →
      S.initResp = .resp r → r.is_error = true →
      (connect_server S conns sid).1 = false ∧
      lookupConn (connect_server S conns sid).2 sid = none) ∧
    (∀ (S : TransportScript) conns sid r nr caps,
      (conns.map Prod.fst).Nodup →
      S.connectOk = true → S.initResp = .resp r → r.error = none →
      capabilities_from_result r.result = some caps → caps.tools = true →
      S.notifyResp = .resp nr →
      ((∃ msg, S.toolsResp = .raised msg) ∨
       (∃ tr, S.toolsResp = .resp tr ∧ tr.is_error = true)) →
      (connect_server S conns sid).1 = true ∧
      lookupConn (connect_server S conns sid).2 sid =
        some { server_id := sid, capabilities := some caps,
               tools := [], is_initialized := true }) := by
  constructor
  · intro S conns sid r hnd hinit herr
    by_cases hco : S.connectOk = true
    · have hinitres : initialize_server S { server_id := sid } =
          (false, { server_id := sid, error := r.error_message }) := by
        simp only [initialize_server, hinit, herr, if_true]
      simp only [connect_server, hco, Bool.not_true, Bool.false_eq_true,
        if_false, hinitres]
      exact ⟨trivial, lookupConn_removeConn_self conns sid hnd⟩
    · have hco' : S.connectOk = false := by simpa using hco
      simp only [connect_server, hco', Bool.not_false, if_true]
      exact ⟨trivial, lookupConn_removeConn_self conns sid hnd⟩
  · intro S conns sid r nr caps hnd hco hinit herr hcaps htools hnotify htoolsfail
    have hie : r.is_error = false := by
      unfold JsonRpcResponse.is_error
      rw [herr]
      rfl
    have hinitres : initialize_server S { server_id := sid } =
        (true, { server_id := sid, capabilities := some caps,
                 tools := [], is_initialized := true }) := by
      simp only [initialize_server, hinit, hie, Bool.false_eq_true, if_false,
        hcaps, hnotify, htools, if_true]
      rcases htoolsfail with ⟨msg, hmsg⟩ | ⟨tr, htr, htrerr⟩
      · simp [hmsg]
      · simp [htr, htrerr]
    simp only [connect_server, hco, Bool.not_true, Bool.false_eq_true,
      if_false, hinitres, if_true]
    exact ⟨trivial, lookupConn_append_self _ sid _
      (lookupConn_removeConn_self conns sid hnd)⟩

/-- C9 (witness): the amended theorem instantiated at the concrete
tools-failure script. -/
theorem connect_server_teardown_semantics_witness :
    (connect_server toolsFailScript [] "srv2").1 = true ∧
    lookupConn (connect_server toolsFailScript [] "srv2").2 "srv2" =
      some { server_id := "srv2",
             capabilities := some { tools := true },
             tools := [], is_initialized := true } :=
  connect_server_teardown_semantics.2 toolsFailScript [] "srv2"
    { result := some (.obj [("capabilities", .obj [("tools", .obj [])])]) }
    {} { tools := true }
    (by simp) rfl rfl rfl rfl rfl rfl
    (Or.inr ⟨{ error := some { code := some (-32601), message := some "method not found" } },
      rfl, rfl⟩)

/-! ## Claim C5: `build_parameters` -/

theorem getKey_setKey_self (l : List (String × JVal)) (k : String) (v : JVal) :
    getKey (setKey l k v) k = some v := by
  induction l with
  | nil => simp [setKey, getKey]
  | cons kv t ih =>
    rcases kv with ⟨k', v'⟩
    unfold setKey
    by_cases h : k' = k
    · rw [if_pos h]
      simp [getKey]
    · rw [if_neg h]
      unfold getKey
      rw [if_neg h]
      exact ih

theorem getKey_setKey_ne (l : List (String × JVal)) (k k' : String) (v : JVal)
    (h : k' ≠ k) : getKey (setKey l k v) k' = getKey l k' := by
  induction l with
  | nil =>
    simp only [setKey, getKey]
    rw [if_neg (fun he => h he.symm)]
  | cons kv t ih =>
    rcases kv with ⟨k0, v0⟩
    unfold setKey
    by_cases h0 : k0 = k
    · rw [if_pos h0]
      unfold getKey
      rw [if_neg (fun he => h he.symm), if_neg (by rw [h0]; exact fun he => h he.symm)]
    · rw [if_neg h0]
      unfold getKey
      by_cases h1 : k0 = k'
      · rw [if_pos h1, if_pos h1]
      · rw [if_neg h1, if_neg h1]
        exact ih

theorem fillRest_shape (ents : EntityExtractionResult)
    (defaults : List (String × JVal)) (required : List String)
    (param_name : String) (d : ParamDef) (st : BuildState) :
    (∃ v, (fillRest ents defaults required param_name d st).parameters =
        setKey st.parameters param_name v ∧
      (fillRest ents defaults required param_name d st).missing_required =
        st.missing_required) ∨
    ((fillRest ents defaults required param_name d st).parameters =
        st.parameters ∧
      (fillRest ents defaults required param_name d st).missing_required =
        st.missing_required ++
          (if param_name ∈ required then [param_name] else [])) := by
  rcases hurl : urlTokenFill ents param_name d with _ | tok
  · rcases hft : freeTextFill ents param_name with _ | ⟨v, tag⟩
    · rcases hdef : getKey defaults param_name with _ | v
      · rcases hsd : d.pdefault with _ | v
        · by_cases hm : param_name ∈ required
          · refine Or.inr ⟨?_, ?_⟩ <;>
              simp [fillRest, hurl, hft, hdef, hsd, hm]
          · refine Or.inr ⟨?_, ?_⟩ <;>
              simp [fillRest, hurl, hft, hdef, hsd, hm]
        · simp only [fillRest, hurl, hft, hdef, hsd]
          exact Or.inl ⟨v, rfl, rfl⟩
      · simp only [fillRest, hurl, hft, hdef]
        exact Or.inl ⟨v, rfl, rfl⟩
    · simp only [fillRest, hurl, hft]
      exact Or.inl ⟨v, rfl, rfl⟩
  · simp only [fillRest, hurl]
    exact Or.inl ⟨_, rfl, rfl⟩

theorem processParam_shape (pf : String → Option ℚ)
    (ents : EntityExtractionResult) (defaults overrides : List (String × JVal))
    (required : List String) (st : BuildState) (p : String × ParamDef) :
    (∃ v, (processParam pf ents defaults overrides required st p).parameters =
        setKey st.parameters p.1 v ∧
      (processParam pf ents defaults overrides required st p).missing_required =
        st.missing_required) ∨
    ((processParam pf ents defaults overrides required st p).parameters =
        st.parameters ∧
      (processParam pf ents defaults overrides required st p).missing_required =
        st.missing_required ++ (if p.1 ∈ required then [p.1] else [])) := by
  rcases hov : getKey overrides p.1 with _ | v
  · rcases hfb : find_best_entity pf ents.entities p.1 p.2 st.used_entities
      with _ | ⟨e, conf, idx⟩
    · simp only [processParam, hov, hfb]
      exact fillRest_shape ents defaults required p.1 p.2 st
    · rcases hcv : convertVal pf p.2 e.text with _ | v
      · simp only [processParam, hov, hfb, hcv]
        exact fillRest_shape ents defaults required p.1 p.2 _
      · simp only [processParam, hov, hfb, hcv]
        exact Or.inl ⟨v, rfl, rfl⟩
  · simp only [processParam, hov]
    exact Or.inl ⟨v, rfl, rfl⟩

theorem buildLoop_missing (pf : String → Option ℚ)
    (ents : EntityExtractionResult) (defaults overrides : List (String × JVal))
    (required : List String) :
    ∀ (props : List (String × ParamDef)) (st : BuildState),
    (props.map Prod.fst).Nodup →
    (∀ k, k ∈ props.map Prod.fst → getKey st.parameters k = none) →
    (buildLoop pf ents defaults overrides required st props).missing_required =
      st.missing_required ++ (props.map Prod.fst).filter
        (fun k => decide (k ∈ required) &&
          (getKey (buildLoop pf ents defaults overrides required st props).parameters
            k).isNone) ∧
    ∀ k, k ∉ props.map Prod.fst →
      getKey (buildLoop pf ents defaults overrides required st props).parameters k =
        getKey st.parameters k := by
  intro props
  induction props with
  | nil =>
    intro st _ _
    exact ⟨by simp [buildLoop], fun k _ => rfl⟩
  | cons p rest ih =>
    intro st hnd hfresh
    rw [List.map_cons, List.nodup_cons] at hnd
    obtain ⟨hknotin, hndrest⟩ := hnd
    have hloop : buildLoop pf ents defaults overrides required st (p :: rest) =
        buildLoop pf ents defaults overrides required
          (processParam pf ents defaults overrides required st p) rest := rfl
    rcases processParam_shape pf ents defaults overrides required st p with
      ⟨v, hp, hm⟩ | ⟨hp, hm⟩
    · have hfresh1 : ∀ k, k ∈ rest.map Prod.fst →
          getKey (processParam pf ents defaults overrides required st p).parameters
            k = none := by
        intro k hk
        have hne : k ≠ p.1 := by
          intro he
          exact hknotin (he ▸ hk)
        rw [hp, getKey_setKey_ne _ _ _ _ hne]
        exact hfresh k (List.mem_cons_of_mem _ hk)
      obtain ⟨ihm, ihf⟩ := ih _ hndrest hfresh1
      have hkey : getKey (buildLoop pf ents defaults overrides required
          (processParam pf ents defaults overrides required st p) rest).parameters
          p.1 = some v := by
        rw [ihf p.1 hknotin, hp, getKey_setKey_self]
      constructor
      · rw [hloop, List.map_cons, List.filter_cons]
        have hc : (decide (p.1 ∈ required) &&
            (getKey (buildLoop pf ents defaults overrides required
              (processParam pf ents defaults overrides required st p)
              rest).parameters p.1).isNone) = false := by
          rw [hkey]
          simp
        rw [hc]
        simp only [Bool.false_eq_true, if_false]
        rw [ihm, hm]
      · intro k hk
        rw [List.map_cons, List.mem_cons] at hk
        push_neg at hk
        rw [hloop, ihf k hk.2, hp, getKey_setKey_ne _ _ _ _ hk.1]
    · have hfresh1 : ∀ k, k ∈ rest.map Prod.fst →
          getKey (processParam pf ents defaults overrides required st p).parameters
            k = none := by
        intro k hk
        rw [hp]
        exact hfresh k (List.mem_cons_of_mem _ hk)
      obtain ⟨ihm, ihf⟩ := ih _ hndrest hfresh1
      have hkey : getKey (buildLoop pf ents defaults overrides required
          (processParam pf ents defaults overrides required st p) rest).parameters
          p.1 = none := by
        rw [ihf p.1 hknotin, hp]
        exact hfresh p.1 (by simp)
      constructor
      · rw [hloop, List.map_cons, List.filter_cons]
        have hc : (decide (p.1 ∈ required) &&
            (getKey (buildLoop pf ents defaults overrides required
              (processParam pf ents defaults overrides required st p)
              rest).parameters p.1).isNone) = decide (p.1 ∈ required) := by
          rw [hkey]
          simp
        rw [hc, ihm, hm]
        by_cases hmem : p.1 ∈ required
        · simp [hmem]
        · simp [hmem]
      · intro k hk
        rw [List.map_cons, List.mem_cons] at hk
        push_neg at hk
        rw [hloop, ihf k hk.2, hp]

/-- C5 (counterexample): with a schema whose required key `x` is not
declared among the properties, `build_parameters` leaves `x` unfilled yet
reports `missing_required = []`, and schema validation *is* performed (its
errors surface in the result) — contradicting the claim that an unfilled
required key suppresses validation and is listed. -/
theorem build_parameters_hidden_required_counterexample :
    "x" ∈ schemaHiddenRequired.required ∧
    getKey (build_parameters (fun _ => none) (fun _ _ => ["required error"])
      schemaHiddenRequired emptyEnts [] []).parameters "x" = none ∧
    (build_parameters (fun _ => none) (fun _ _ => ["required error"])
      schemaHiddenRequired emptyEnts [] []).missing_required = [] ∧
    (build_parameters (fun _ => none) (fun _ _ => ["required error"])
      schemaHiddenRequired emptyEnts [] []).validation_errors =
      ["required error"] ∧
    (build_parameters (fun _ => none) (fun _ _ => ["required error"])
      schemaHiddenRequired emptyEnts [] []).success = false := by
  refine ⟨by simp [schemaHiddenRequired], rfl, rfl, rfl, rfl⟩

/-- C5 (amended): for every schema whose property names are distinct (as
Python dictionaries force), `missing_required` lists exactly the unfilled
required keys *that are declared among the schema's properties* (a
required key outside `properties` is never reported, and validation still
runs — see the counterexample); when `missing_required` is non-empty,
validation is not performed: the error list is empty and the whole result
is independent of the validator; and `success` is true iff both
`missing_required` and `validation_errors` are empty. -/
theorem build_parameters_success_characterization
    (pf : String → Option ℚ)
    (validator : List (String × JVal) → JSchema → List String)
    (schema : JSchema) (ents : EntityExtractionResult)
    (defaults overrides : List (String × JVal))
    (hnd : (schema.properties.map Prod.fst).Nodup) :
    (build_parameters pf validator schema ents defaults overrides).missing_required =
      (schema.properties.map Prod.fst).filter
        (fun k => decide (k ∈ schema.required) &&
          (getKey (build_parameters pf validator schema ents defaults
            overrides).parameters k).isNone) ∧
    ((build_parameters pf validator schema ents defaults overrides).missing_required
        ≠ [] →
      (build_parameters pf validator schema ents defaults
        overrides).validation_errors = [] ∧
      ∀ validator', build_parameters pf validator' schema ents defaults overrides =
        build_parameters pf validator schema ents defaults overrides) ∧
    (build_parameters pf validator schema ents defaults overrides).success =
      ((build_parameters pf validator schema ents defaults
        overrides).missing_required.isEmpty &&
       (build_parameters pf validator schema ents defaults
        overrides).validation_errors.isEmpty) := by
  obtain ⟨hm, _⟩ := buildLoop_missing pf ents defaults overrides schema.required
    schema.properties {} hnd (fun k _ => rfl)
  refine ⟨?_, ?_, ?_⟩
  · show (buildLoop pf ents defaults overrides schema.required {}
      schema.properties).missing_required = _
    rw [hm]
    simp only [List.nil_append]
    rfl
  · intro hne
    have hne' : (buildLoop pf ents defaults overrides schema.required {}
        schema.properties).missing_required ≠ [] := hne
    constructor
    · show (if (buildLoop pf ents defaults overrides schema.required {}
          schema.properties).missing_required = []
        then validator (buildLoop pf ents defaults overrides schema.required {}
          schema.properties).parameters schema else []) = []
      rw [if_neg hne']
    · intro validator'
      show build_parameters pf validator' schema ents defaults overrides =
        build_parameters pf validator schema ents defaults overrides
      simp only [build_parameters]
      rw [if_neg hne', if_neg hne']
  · rfl

/-- C5 (witness): a schema with one required property `path` and nothing to
fill it from yields `missing_required = ["path"]` and failure, via the
amended characterization. -/
theorem build_parameters_success_characterization_witness :
    (build_parameters (fun _ => none) (fun _ _ => [])
      schemaPathRequired emptyEnts [] []).missing_required = ["path"] ∧
    (build_parameters (fun _ => none) (fun _ _ => [])
      schemaPathRequired emptyEnts [] []).success = false := by
  obtain ⟨hm, _, hs⟩ := build_parameters_success_characterization
    (fun _ => none) (fun _ _ => []) schemaPathRequired emptyEnts [] []
    (by simp [schemaPathRequired])
  constructor
  · rw [hm]
    rfl
  · rw [hs]
    rfl
